import Mathlib

/-!
# go-client-mongodb-atlas: Alerts, Processes and Measurements services

A shallow embedding of `mongodbatlas/atlas_alerts.go`, `mongodbatlas/processes.go`
and `mongodbatlas/measurements.go`.

* A Go slice is an `Option (List α)`: `none` is the nil slice, `some []` an empty
  non-nil slice. A Go pointer is an `Option`: `none` is nil.
* The client (`RequestDoer`) is an injected collaborator. It is modelled as two
  functions over a hidden collaborator state `σ`, so that its answers may depend on
  everything that happened before. A service method is generic in `σ`: all it can do
  with the collaborator is apply these two functions and pass the state on.
* The calls a method makes are observed, not declared: `RequestDoer.recorded` wraps a
  client so that every application of `NewRequest` or `Do` appends itself to a log
  carried in the collaborator state, and the trace of a run is that log.
* `Do` decodes into a caller-supplied target: it receives the zero value that
  `new(T)` allocated and hands back the target as it left it.
* A nil-pointer dereference in a service method is the outcome `panicked`.
* Identifiers, hosts and paths are `String`s: the services only compare them with `""`
  and concatenate them. The fields of `AcknowledgeRequest`, whose bytes matter to
  `encoding/json`, are byte sequences (`GoString`). A Go `int` is an `Int`, only
  written in decimal by `%d`.
* The context is passed on to both calls unchanged and is otherwise uninterpreted.
-/

namespace mongodbatlas

/-! ## Data model -/

/-- A Go slice: `none` is the nil slice. -/
abbrev Slice (α : Type) := Option (List α)

/-- A byte. -/
abbrev Byte := Fin 256

/-- A Go string as what it is, a sequence of bytes that need not be valid UTF-8. -/
abbrev GoString := List Byte

/-- Modelled from the spec: the error values of the package. `NewArgError` and its
`ArgError` type are declared in a file of the package that is not at hand; the spec
(section 7) names ArgumentError, TransportError, APIError and DecodeError. `arg` is the
value `NewArgError` builds, the other constructors are errors only the collaborator can
produce. -/
inductive GoError where
  | arg (arg reason : String)
  | transport (msg : String)
  | api (status : Int) (msg : String)
  | decode (msg : String)
  deriving DecidableEq, Repr

/-- Modelled from the spec: `NewArgError` is declared in a file of the
package that is not at hand; it builds the
ArgumentError for a named argument. Its result is a non-nil pointer, hence never the
nil error. -/
def NewArgError (arg reason : String) : GoError := GoError.arg arg reason

/-- Modelled from the spec: `Link` is declared in a file of the
package that is not at hand; a navigation link of the
pagination envelope. -/
structure Link where
  Rel : String
  Href : String
  deriving DecidableEq, Repr

/-- Modelled from the spec: `Response` is declared in a file of the
package that is not at hand; the metadata object
that records the HTTP status and the extracted links. -/
structure Response where
  StatusCode : Int
  Links : Slice (Option Link)
  deriving DecidableEq, Repr

/-- Modelled from the spec: `CurrentValue` is declared in a file of the
package that is not at hand; carried as an
uninterpreted payload. -/
structure CurrentValue where
  raw : String
  deriving DecidableEq, Repr

/-- Modelled from the spec: `Matcher` is declared in a file of the
package that is not at hand; carried as an
uninterpreted payload. -/
structure Matcher where
  raw : String
  deriving DecidableEq, Repr

/-- Modelled from the spec: `MetricThreshold` is declared in a file of the
package that is not at hand; carried as an
uninterpreted payload. -/
structure MetricThreshold where
  raw : String
  deriving DecidableEq, Repr

/-- Modelled from the spec: `Notification` is declared in a file of the
package that is not at hand; carried as an
uninterpreted payload. -/
structure Notification where
  raw : String
  deriving DecidableEq, Repr

/-- The struct `Alert` of atlas_alerts.go. -/
structure Alert where
  ID : String
  GroupID : String
  AlertConfigID : String
  EventTypeName : String
  Created : String
  Updated : String
  Enabled : Option Bool
  Resolved : String
  Status : String
  LastNotified : String
  AcknowledgedUntil : String
  AcknowledgementComment : String
  AcknowledgingUsername : String
  HostnameAndPort : String
  MetricName : String
  CurrentValue : Option CurrentValue
  ReplicaSetName : String
  ClusterName : String
  Matchers : Slice Matcher
  MetricThreshold : Option MetricThreshold
  Notifications : Slice Notification
  deriving DecidableEq, Repr

/-- The value `new(Alert)` points to. -/
def Alert.zero : Alert :=
  { ID := "", GroupID := "", AlertConfigID := "", EventTypeName := "", Created := "",
    Updated := "", Enabled := none, Resolved := "", Status := "", LastNotified := "",
    AcknowledgedUntil := "", AcknowledgementComment := "", AcknowledgingUsername := "",
    HostnameAndPort := "", MetricName := "", CurrentValue := none, ReplicaSetName := "",
    ClusterName := "", Matchers := none, MetricThreshold := none, Notifications := none }

/-- The struct `AcknowledgeRequest` of atlas_alerts.go. -/
structure AcknowledgeRequest where
  AcknowledgedUntil : GoString
  AcknowledgementComment : GoString
  deriving DecidableEq, Repr

/-- The struct `AlertsResponse` of atlas_alerts.go. -/
structure AlertsResponse where
  Links : Slice (Option Link)
  Results : Slice Alert
  TotalCount : Int
  deriving DecidableEq, Repr

/-- The value `new(AlertsResponse)` points to. -/
def AlertsResponse.zero : AlertsResponse :=
  { Links := none, Results := none, TotalCount := 0 }

/-- The struct `Process` of processes.go. -/
structure Process where
  Hostname : String
  Port : Int
  deriving DecidableEq, Repr

/-- The struct `processesResponse` of processes.go. -/
structure processesResponse where
  Links : Slice (Option Link)
  Results : Slice Process
  TotalCount : Int
  deriving DecidableEq, Repr

/-- The value `new(processesResponse)` points to. -/
def processesResponse.zero : processesResponse :=
  { Links := none, Results := none, TotalCount := 0 }

/-- The struct `Datapoint` of measurements.go. -/
structure Datapoint where
  Value : Float
  Timestamp : String

/-- The struct `Measurement` of measurements.go. -/
structure Measurement where
  Datapoints : Slice Datapoint
  Name : String

/-- The struct `measurementsResponse` of measurements.go. -/
structure measurementsResponse where
  Links : Slice (Option Link)
  Measurements : Slice Measurement

/-- The value `new(measurementsResponse)` points to. -/
def measurementsResponse.zero : measurementsResponse :=
  { Links := none, Measurements := none }

/-! ## Path templates and `fmt.Sprintf` -/

/-- An operand of `fmt.Sprintf`. -/
inductive FmtArg where
  | str (s : String)
  | int (i : Int)

/-- The directives of `fmt.Sprintf` the package uses: `%s` with a string operand writes
the string, `%d` with an int operand writes its decimal form, every other character is
copied. A directive without an operand of its type does not occur in the package and
is copied as it stands. -/
def sprintfAux : List Char → List FmtArg → List Char
  | [], _ => []
  | '%' :: 's' :: cs, FmtArg.str s :: as => s.data ++ sprintfAux cs as
  | '%' :: 'd' :: cs, FmtArg.int i :: as => (toString i).data ++ sprintfAux cs as
  | c :: cs, as => c :: sprintfAux cs as

/-- The function `fmt.Sprintf` on the directives of `sprintfAux`. -/
def Sprintf (format : String) (args : List FmtArg) : String :=
  String.mk (sprintfAux format.data args)

/-- The constant `alertPath` of atlas_alerts.go. -/
def alertPath : String := "groups/%s/alerts"

/-- The constant `processesPath` of processes.go. -/
def processesPath : String := "groups/%s/processes"

/-- The constant `measurementsPath` of measurements.go. -/
def measurementsPath : String :=
  "groups/%s/processes/%s:%d/measurements?granularity=PT24H&period=PT24H"

/-- The constant `http.MethodGet`. -/
def MethodGet : String := "GET"

/-- The constant `http.MethodPatch`. -/
def MethodPatch : String := "PATCH"

/-! ## The injected collaborators -/

/-- Modelled from the spec: `setListOptions` is declared in a file of the package that
is not at hand. When list options are present they are serialized by the list-options
encoder `enc` and added to the path; nil options leave the path unchanged. The encoder
itself is a parameter. -/
def setListOptions {Opts : Type} (enc : String → Opts → String × Option GoError)
    (s : String) (opt : Option Opts) : String × Option GoError :=
  match opt with
  | none => (s, none)
  | some o => enc s o

/-- The interface `RequestDoer` as the services use it, over a collaborator state `σ`.
`NewRequest` gets the context, the method, the path and the body (nil or an
`AcknowledgeRequest`, the only bodies the services pass) and gives a request and an
error. `Do` gets the context, the request and the decode target and gives the response
metadata, an error and the target as it left it. Both give the next collaborator state.
`V` is the type of the decode target of the calling method. -/
structure RequestDoer (σ Ctx Req V : Type) where
  NewRequest : σ → Ctx → String → String → Option AcknowledgeRequest →
    (Req × Option GoError) × σ
  Do : σ → Ctx → Req → V → (Option Response × Option GoError × V) × σ

/-- How a service method ends: it returns its three results, or it panics. -/
inductive Outcome (α : Type) where
  | returned (val : α) (resp : Option Response) (err : Option GoError)
  | panicked

/-- A run of a service method: how it ended and the collaborator state it left. -/
structure Run (σ α : Type) where
  out : Outcome α
  state : σ

/-- The struct `AlertsServiceOp` of atlas_alerts.go. -/
structure AlertsServiceOp (σ Ctx Req V : Type) where
  Client : RequestDoer σ Ctx Req V

/-- The struct `ProcessesServiceOp` of processes.go. -/
structure ProcessesServiceOp (σ Ctx Req V : Type) where
  Client : RequestDoer σ Ctx Req V

/-- The struct `MeasurementsServiceOp` of measurements.go. -/
structure MeasurementsServiceOp (σ Ctx Req V : Type) where
  Client : RequestDoer σ Ctx Req V

/-! ## Alerts service -/

/-- The method `AlertsServiceOp.Get` of atlas_alerts.go. -/
def AlertsServiceOp.Get {σ Ctx Req : Type} (s : AlertsServiceOp σ Ctx Req Alert) (st : σ)
    (ctx : Ctx) (groupID alertID : String) : Run σ (Option Alert) :=
  if groupID = "" then
    ⟨Outcome.returned none none (some (NewArgError "groupID" "must be set")), st⟩
  else if alertID = "" then
    ⟨Outcome.returned none none (some (NewArgError "alertID" "must be set")), st⟩
  else
    let basePath := Sprintf alertPath [FmtArg.str groupID]
    let path := Sprintf "%s/%s" [FmtArg.str basePath, FmtArg.str alertID]
    match s.Client.NewRequest st ctx MethodGet path none with
    | ((_, some err), st1) => ⟨Outcome.returned none none (some err), st1⟩
    | ((req, none), st1) =>
      match s.Client.Do st1 ctx req Alert.zero with
      | ((resp, some err, _), st2) => ⟨Outcome.returned none resp (some err), st2⟩
      | ((resp, none, root), st2) => ⟨Outcome.returned (some root) resp none, st2⟩

/-- The method `AlertsServiceOp.List` of atlas_alerts.go. -/
def AlertsServiceOp.List {σ Ctx Req Opts : Type}
    (enc : String → Opts → String × Option GoError)
    (s : AlertsServiceOp σ Ctx Req AlertsResponse) (st : σ)
    (ctx : Ctx) (groupID : String) (listOptions : Option Opts) : Run σ (Slice Alert) :=
  if groupID = "" then
    ⟨Outcome.returned none none (some (NewArgError "groupID" "must be set")), st⟩
  else
    let path := Sprintf alertPath [FmtArg.str groupID]
    match setListOptions enc path listOptions with
    | (_, some err) => ⟨Outcome.returned none none (some err), st⟩
    | (path, none) =>
      match s.Client.NewRequest st ctx MethodGet path none with
      | ((_, some err), st1) => ⟨Outcome.returned none none (some err), st1⟩
      | ((req, none), st1) =>
        match s.Client.Do st1 ctx req AlertsResponse.zero with
        | ((resp, some err, _), st2) => ⟨Outcome.returned none resp (some err), st2⟩
        | ((resp, none, root), st2) =>
          match root.Links with
          | some l =>
            match resp with
            | none => ⟨Outcome.panicked, st2⟩
            | some r =>
              ⟨Outcome.returned root.Results (some { r with Links := some l }) none, st2⟩
          | none => ⟨Outcome.returned root.Results resp none, st2⟩

/-- The method `AlertsServiceOp.Acknowledge` of atlas_alerts.go. -/
def AlertsServiceOp.Acknowledge {σ Ctx Req : Type} (s : AlertsServiceOp σ Ctx Req Alert)
    (st : σ) (ctx : Ctx) (groupID alertID : String) (params : Option AcknowledgeRequest) :
    Run σ (Option Alert) :=
  if groupID = "" then
    ⟨Outcome.returned none none (some (NewArgError "groupID" "must be set")), st⟩
  else if alertID = "" then
    ⟨Outcome.returned none none (some (NewArgError "alertID" "must be set")), st⟩
  else
    match params with
    | none => ⟨Outcome.returned none none (some (NewArgError "params" "must be set")), st⟩
    | some p =>
      let basePath := Sprintf alertPath [FmtArg.str groupID]
      let path := Sprintf "%s/%s" [FmtArg.str basePath, FmtArg.str alertID]
      match s.Client.NewRequest st ctx MethodPatch path (some p) with
      | ((_, some err), st1) => ⟨Outcome.returned none none (some err), st1⟩
      | ((req, none), st1) =>
        match s.Client.Do st1 ctx req Alert.zero with
        | ((resp, some err, _), st2) => ⟨Outcome.returned none resp (some err), st2⟩
        | ((resp, none, root), st2) => ⟨Outcome.returned (some root) resp none, st2⟩

/-! ## Processes service -/

/-- The method `ProcessesServiceOp.List` of processes.go. -/
def ProcessesServiceOp.List {σ Ctx Req Opts : Type}
    (enc : String → Opts → String × Option GoError)
    (s : ProcessesServiceOp σ Ctx Req processesResponse) (st : σ)
    (ctx : Ctx) (groupID : String) (listOptions : Option Opts) : Run σ (Slice Process) :=
  let path := Sprintf processesPath [FmtArg.str groupID]
  match setListOptions enc path listOptions with
  | (_, some err) => ⟨Outcome.returned none none (some err), st⟩
  | (path, none) =>
    match s.Client.NewRequest st ctx MethodGet path none with
    | ((_, some err), st1) => ⟨Outcome.returned none none (some err), st1⟩
    | ((req, none), st1) =>
      match s.Client.Do st1 ctx req processesResponse.zero with
      | ((resp, some err, _), st2) => ⟨Outcome.returned none resp (some err), st2⟩
      | ((resp, none, root), st2) =>
        match root.Links with
        | some l =>
          match resp with
          | none => ⟨Outcome.panicked, st2⟩
          | some r =>
            ⟨Outcome.returned root.Results (some { r with Links := some l }) none, st2⟩
        | none => ⟨Outcome.returned root.Results resp none, st2⟩

/-! ## Measurements service -/

/-- The method `MeasurementsServiceOp.List` of measurements.go. -/
def MeasurementsServiceOp.List {σ Ctx Req Opts : Type}
    (enc : String → Opts → String × Option GoError)
    (s : MeasurementsServiceOp σ Ctx Req measurementsResponse) (st : σ)
    (ctx : Ctx) (groupID host : String) (port : Int) (listOptions : Option Opts) :
    Run σ (Slice Measurement) :=
  let path := Sprintf measurementsPath [FmtArg.str groupID, FmtArg.str host, FmtArg.int port]
  match setListOptions enc path listOptions with
  | (_, some err) => ⟨Outcome.returned none none (some err), st⟩
  | (path, none) =>
    match s.Client.NewRequest st ctx MethodGet path none with
    | ((_, some err), st1) => ⟨Outcome.returned none none (some err), st1⟩
    | ((req, none), st1) =>
      match s.Client.Do st1 ctx req measurementsResponse.zero with
      | ((resp, some err, _), st2) => ⟨Outcome.returned none resp (some err), st2⟩
      | ((resp, none, root), st2) =>
        match root.Links with
        | some l =>
          match resp with
          | none => ⟨Outcome.panicked, st2⟩
          | some r =>
            ⟨Outcome.returned root.Measurements (some { r with Links := some l }) none, st2⟩
        | none => ⟨Outcome.returned root.Measurements resp none, st2⟩

/-! ## Observing the calls on the client -/

/-- A call made on the client, with its arguments. -/
inductive Call (Ctx Req : Type) where
  | newRequest (ctx : Ctx) (method path : String) (body : Option AcknowledgeRequest)
  | doRequest (ctx : Ctx) (req : Req)
  deriving DecidableEq, Repr

/-- Whether a call is a `NewRequest`. -/
def Call.isNewRequest {Ctx Req : Type} : Call Ctx Req → Bool
  | Call.newRequest _ _ _ _ => true
  | Call.doRequest _ _ => false

/-- Whether a call is a `Do`. -/
def Call.isDo {Ctx Req : Type} : Call Ctx Req → Bool
  | Call.newRequest _ _ _ _ => false
  | Call.doRequest _ _ => true

/-- A log of calls, in the order they were made. -/
abbrev CallLog (Ctx Req : Type) := List (Call Ctx Req)

/-- The client `c` under observation: it answers as `c` does and moves the state of `c`
as `c` does, and each application of `NewRequest` or `Do` appends the call, with the
arguments it was given, to a log kept next to the state of `c`. -/
def RequestDoer.recorded {σ Ctx Req V : Type} (c : RequestDoer σ Ctx Req V) :
    RequestDoer (σ × CallLog Ctx Req) Ctx Req V where
  NewRequest := fun st ctx method path body =>
    ((c.NewRequest st.1 ctx method path body).1,
      ((c.NewRequest st.1 ctx method path body).2,
        st.2 ++ [Call.newRequest ctx method path body]))
  Do := fun st ctx req v =>
    ((c.Do st.1 ctx req v).1, ((c.Do st.1 ctx req v).2, st.2 ++ [Call.doRequest ctx req]))

/-- An Alerts service whose client is under observation. -/
def AlertsServiceOp.recorded {σ Ctx Req V : Type} (s : AlertsServiceOp σ Ctx Req V) :
    AlertsServiceOp (σ × CallLog Ctx Req) Ctx Req V :=
  ⟨s.Client.recorded⟩

/-- A Processes service whose client is under observation. -/
def ProcessesServiceOp.recorded {σ Ctx Req V : Type} (s : ProcessesServiceOp σ Ctx Req V) :
    ProcessesServiceOp (σ × CallLog Ctx Req) Ctx Req V :=
  ⟨s.Client.recorded⟩

/-- A Measurements service whose client is under observation. -/
def MeasurementsServiceOp.recorded {σ Ctx Req V : Type}
    (s : MeasurementsServiceOp σ Ctx Req V) :
    MeasurementsServiceOp (σ × CallLog Ctx Req) Ctx Req V :=
  ⟨s.Client.recorded⟩

/-- The calls a run made on an observed client, in order: the log it left. -/
def Run.trace {σ Ctx Req α : Type} (r : Run (σ × CallLog Ctx Req) α) : CallLog Ctx Req :=
  r.state.2

/-! ## UTF-8 as `unicode/utf8` and `encoding/json` see it -/

/-- The byte with the value `n` (taken modulo 256). -/
def byte (n : Nat) : Byte := ⟨n % 256, Nat.mod_lt n (by decide)⟩

/-- The tables `first` and `acceptRanges` of `unicode/utf8` for a lead byte of a
sequence of more than one byte: the size of the sequence and the lowest and highest
second byte accepted. `none` for every other byte (ASCII or never a lead byte). -/
def leadInfo (b : Nat) : Option (Nat × Nat × Nat) :=
  if 0xC2 ≤ b ∧ b ≤ 0xDF then some (2, 0x80, 0xBF)
  else if b = 0xE0 then some (3, 0xA0, 0xBF)
  else if 0xE1 ≤ b ∧ b ≤ 0xEC then some (3, 0x80, 0xBF)
  else if b = 0xED then some (3, 0x80, 0x9F)
  else if 0xEE ≤ b ∧ b ≤ 0xEF then some (3, 0x80, 0xBF)
  else if b = 0xF0 then some (4, 0x90, 0xBF)
  else if 0xF1 ≤ b ∧ b ≤ 0xF3 then some (4, 0x80, 0xBF)
  else if b = 0xF4 then some (4, 0x80, 0x8F)
  else none

/-- The function `utf8.DecodeRuneInString` on the non-empty string `s0 :: rest`: the
rune and its size, or `none` where Go answers `(RuneError, 1)` for an invalid or
truncated encoding. The masks and shifts of the Go code are written as remainders and
products (`s0 & 0x1F` is `s0 % 32`, `<< 6` is `* 64`, and the parts do not overlap). -/
def DecodeRune (s0 : Byte) (rest : List Byte) : Option (Nat × Nat) :=
  if s0.val < 0x80 then some (s0.val, 1)
  else
    match leadInfo s0.val with
    | none => none
    | some (sz, lo, hi) =>
      if rest.length + 1 < sz then none
      else
        match rest with
        | [] => none
        | s1 :: r1 =>
          if s1.val < lo ∨ hi < s1.val then none
          else if sz ≤ 2 then some (s0.val % 32 * 64 + s1.val % 64, 2)
          else
            match r1 with
            | [] => none
            | s2 :: r2 =>
              if s2.val < 0x80 ∨ 0xBF < s2.val then none
              else if sz ≤ 3 then
                some (s0.val % 16 * 4096 + s1.val % 64 * 64 + s2.val % 64, 3)
              else
                match r2 with
                | [] => none
                | s3 :: _ =>
                  if s3.val < 0x80 ∨ 0xBF < s3.val then none
                  else
                    some (s0.val % 8 * 262144 + s1.val % 64 * 4096 + s2.val % 64 * 64 +
                      s3.val % 64, 4)

/-- The function `utf8.EncodeRune` on a Unicode scalar value (the code point of a
`Char`; surrogates and values beyond U+10FFFF, which Go replaces, are no `Char`). -/
def EncodeRune (r : Nat) : List Byte :=
  if r < 0x80 then [byte r]
  else if r < 0x800 then [byte (0xC0 + r / 64), byte (0x80 + r % 64)]
  else if r < 0x10000 then
    [byte (0xE0 + r / 4096), byte (0x80 + r / 64 % 64), byte (0x80 + r % 64)]
  else
    [byte (0xF0 + r / 262144), byte (0x80 + r / 4096 % 64), byte (0x80 + r / 64 % 64),
      byte (0x80 + r % 64)]

/-- The characters `encoding/json` writes for a Go string from the position where
`skip` bytes of an already decoded rune remain: each valid encoding becomes its rune,
each byte that starts no valid encoding becomes U+FFFD and one byte is consumed. -/
def toValidUTF8Aux : Nat → List Byte → List Char
  | _, [] => []
  | skip + 1, _ :: rest => toValidUTF8Aux skip rest
  | 0, s0 :: rest =>
    match DecodeRune s0 rest with
    | some (r, size) => Char.ofNat r :: toValidUTF8Aux (size - 1) rest
    | none => Char.ofNat 0xFFFD :: toValidUTF8Aux 0 rest

/-- The JSON string that `json.Marshal` writes for a Go string: the string coerced to
valid UTF-8, invalid bytes replaced by U+FFFD. The escapes of the JSON text denote the
same characters and are not modelled. -/
def toValidUTF8 (s : GoString) : String := String.mk (toValidUTF8Aux 0 s)

/-- The function `utf8.ValidString` from the position where `skip` bytes of an already
decoded rune remain. -/
def ValidStringAux : Nat → List Byte → Bool
  | _, [] => true
  | skip + 1, _ :: rest => ValidStringAux skip rest
  | 0, s0 :: rest =>
    match DecodeRune s0 rest with
    | some (_, size) => ValidStringAux (size - 1) rest
    | none => false

/-- The function `utf8.ValidString`. -/
def ValidString (s : GoString) : Bool := ValidStringAux 0 s

/-- The Go string `json.Unmarshal` stores for a JSON string: its UTF-8 encoding. -/
def encodeUTF8 (s : String) : GoString := s.data.flatMap fun c => EncodeRune c.toNat

/-! ## JSON encoding of `AcknowledgeRequest` -/

/-- A struct field as `encoding/json` sees it: the key of its tag, whether the tag says
`omitempty`, and its (string) value. -/
structure JSONField where
  key : String
  omitempty : Bool
  value : GoString

/-- A JSON object whose members are strings, as the list of its members in order. Keys
and values are JSON strings, that is sequences of Unicode characters. Members of other
JSON types are not modelled. -/
abbrev JSONObject := List (String × String)

/-- Marshalling of a struct of string fields: a field tagged `omitempty` whose value has
length zero is left out, every other field becomes a member under its key, its value
coerced to valid UTF-8. -/
def marshalFields (fs : List JSONField) : JSONObject :=
  fs.filterMap fun f =>
    if f.omitempty && f.value.isEmpty then none else some (f.key, toValidUTF8 f.value)

/-- Case folding of one character as far as it can reach an ASCII letter: a lower-case
ASCII letter folds to its upper-case letter, the Kelvin sign U+212A to `K`, the long s
U+017F to `S`; these are the only characters in the simple case-folding orbit of an
ASCII letter. Other characters are left as they are. -/
def foldRune (c : Char) : Char :=
  if 'a' ≤ c ∧ c ≤ 'z' then Char.ofNat (c.toNat - 32)
  else if c = Char.ofNat 0x212A then 'K'
  else if c = Char.ofNat 0x17F then 'S'
  else c

/-- Case folding of a name, character by character. -/
def foldName (s : String) : String := String.mk (s.data.map foldRune)

/-- Whether `json.Unmarshal` takes the member key `key` for the struct field tagged
`field`, a name of ASCII letters: an exact match or a case-insensitive one. -/
def matchesField (key field : String) : Bool := foldName key == foldName field

/-- The member of an object that `json.Unmarshal` stores into the field tagged `field`:
of several members that match the last counts. -/
def JSONObject.member (o : JSONObject) (field : String) : Option String :=
  (o.reverse.find? fun m => matchesField m.1 field).map Prod.snd

/-- The fields of `AcknowledgeRequest` with their tags
`json:"acknowledgedUntil,omitempty"` and `json:"acknowledgementComment,omitempty"`. -/
def AcknowledgeRequest.fields (r : AcknowledgeRequest) : List JSONField :=
  [⟨"acknowledgedUntil", true, r.AcknowledgedUntil⟩,
   ⟨"acknowledgementComment", true, r.AcknowledgementComment⟩]

/-- The JSON object `json.Marshal` writes for an `AcknowledgeRequest`. -/
def AcknowledgeRequest.marshal (r : AcknowledgeRequest) : JSONObject :=
  marshalFields r.fields

/-- The `AcknowledgeRequest` that `json.Unmarshal` fills from an object, starting from
the zero value: a field without a member keeps the empty string. -/
def AcknowledgeRequest.unmarshal (o : JSONObject) : AcknowledgeRequest :=
  { AcknowledgedUntil := ((o.member "acknowledgedUntil").map encodeUTF8).getD [],
    AcknowledgementComment := ((o.member "acknowledgementComment").map encodeUTF8).getD [] }

/-! ## Predicates on runs and test doubles -/

/-- Whether an error is the argument error of `NewArgError`. -/
def GoError.isArgError : GoError → Bool
  | GoError.arg _ _ => true
  | _ => false

/-- A run that failed argument validation: nil result, nil response metadata, an
argument error, and the collaborator state `st` it started from untouched. On an
observed client `st` holds the log, so that no call was made. -/
def Run.argFailure {σ α : Type} (r : Run σ (Option α)) (st : σ) : Prop :=
  (∃ e, r.out = Outcome.returned none none (some e) ∧ e.isArgError = true) ∧ r.state = st

/-- A run on an observed client makes one round trip at most: at most one NewRequest
and at most one Do; a Do only as the second call, after a NewRequest of the same run
that gave a nil error, and with the request that NewRequest gave; and a run that
returns a nil error has made exactly one NewRequest and exactly one Do. `newRequest` is
the NewRequest of the client and `st` the collaborator state at the start of the run. -/
def Run.singleRoundTrip {σ Ctx Req α : Type}
    (newRequest : σ → Ctx → String → String → Option AcknowledgeRequest →
      (Req × Option GoError) × σ) (st : σ) (r : Run (σ × CallLog Ctx Req) α) : Prop :=
  r.trace.countP Call.isNewRequest ≤ 1 ∧ r.trace.countP Call.isDo ≤ 1 ∧
  (∀ c req, Call.doRequest c req ∈ r.trace →
    ∃ m p b st1, newRequest st c m p b = ((req, none), st1) ∧
      r.trace = [Call.newRequest c m p b, Call.doRequest c req]) ∧
  (∀ v resp, r.out = Outcome.returned v resp none →
    r.trace.countP Call.isNewRequest = 1 ∧ r.trace.countP Call.isDo = 1)

/-- A run of Get or Acknowledge returns, and its Alert is nil exactly when its error is
non-nil. -/
def Run.alertIffNoError {σ : Type} (r : Run σ (Option Alert)) : Prop :=
  ∃ v resp err, r.out = Outcome.returned v resp err ∧ (v = none ↔ err ≠ none)

/-- A run of Get or Acknowledge on an observed client returns, its Alert is nil exactly
when its error is non-nil, and if it made no Do its response metadata is nil and its
error non-nil. -/
def Run.alertOrError {σ Ctx Req : Type} (r : Run (σ × CallLog Ctx Req) (Option Alert)) :
    Prop :=
  ∃ v resp err, r.out = Outcome.returned v resp err ∧ (v = none ↔ err ≠ none) ∧
    (r.trace.countP Call.isDo = 0 → resp = none ∧ err ≠ none)

/-- The metadata a List method returns for the metadata `r` of `Do` and the links of
the decoded envelope, stated by its fields: the status is that of `r`; non-nil links
of the envelope are the links returned; with nil links the metadata is `r` itself. -/
def linksCopied (links : Slice (Option Link)) (r r' : Response) : Prop :=
  r'.StatusCode = r.StatusCode ∧ (∀ l, links = some l → r'.Links = some l) ∧
    (links = none → r' = r)

/-- A client double over a call counter: `NewRequest` answers with the request
`method ++ " " ++ path` and the error `newErr`, `Do` answers with `resp`, `doErr` and
the decoded target `decoded`. -/
def stubDoer {V : Type} (newErr : Option GoError) (resp : Option Response)
    (doErr : Option GoError) (decoded : V) : RequestDoer Nat Unit String V where
  NewRequest := fun st _ method path _ => ((method ++ " " ++ path, newErr), st + 1)
  Do := fun st _ _ _ => ((resp, doErr, decoded), st + 1)

/-- A list-options encoder double over a page number: it appends `&pageNum=n`. -/
def stubEncoder (s : String) (pageNum : Nat) : String × Option GoError :=
  (s ++ "&pageNum=" ++ toString pageNum, none)

/-- Response metadata of the doubles: status 200 with one `prev` link. -/
def demoResponse : Response := ⟨200, some [some ⟨"prev", "u0"⟩]⟩

/-- An alerts envelope with one `next` link and an empty result sequence. -/
def demoAlertsEnvelope : AlertsResponse := ⟨some [some ⟨"next", "u1"⟩], some [], 0⟩

/-- A processes envelope with an empty links array, the one result
(a.example.com, 27017) and the total count 1. -/
def demoProcessesEnvelope : processesResponse :=
  ⟨some [], some [⟨"a.example.com", 27017⟩], 1⟩

/-- A measurements envelope without links and with one measurement without data points. -/
def demoMeasurementsEnvelope : measurementsResponse := ⟨none, some [⟨none, "CPU"⟩]⟩

/-- An Alerts service on a double whose calls succeed with `demoAlertsEnvelope`. -/
def demoAlertsList : AlertsServiceOp Nat Unit String AlertsResponse :=
  ⟨stubDoer none (some demoResponse) none demoAlertsEnvelope⟩

/-- An Alerts service on a double whose calls succeed with the zero Alert. -/
def demoAlerts : AlertsServiceOp Nat Unit String Alert :=
  ⟨stubDoer none (some ⟨200, none⟩) none Alert.zero⟩

/-- A Processes service on a double whose calls succeed with `demoProcessesEnvelope`. -/
def demoProcesses : ProcessesServiceOp Nat Unit String processesResponse :=
  ⟨stubDoer none (some demoResponse) none demoProcessesEnvelope⟩

/-- A Processes service on a double whose NewRequest and Do give nil errors, whose Do
gives nil response metadata and whose envelope is `demoProcessesEnvelope`, with
non-nil links. -/
def nilMetadataProcesses : ProcessesServiceOp Nat Unit String processesResponse :=
  ⟨stubDoer none none none demoProcessesEnvelope⟩

/-- A Measurements service on a double whose calls succeed with
`demoMeasurementsEnvelope`. -/
def demoMeasurements : MeasurementsServiceOp Nat Unit String measurementsResponse :=
  ⟨stubDoer none (some demoResponse) none demoMeasurementsEnvelope⟩

/-- The bytes of the ASCII string `noted`. -/
def notedBytes : GoString := [0x6E, 0x6F, 0x74, 0x65, 0x64]

/-! ## Path lemmas -/

theorem Sprintf_alertPath (g : String) :
    Sprintf alertPath [FmtArg.str g] = "groups/" ++ g ++ "/alerts" := by
  apply String.ext
  simp [Sprintf, alertPath, sprintfAux]

theorem Sprintf_processesPath (g : String) :
    Sprintf processesPath [FmtArg.str g] = "groups/" ++ g ++ "/processes" := by
  apply String.ext
  simp [Sprintf, processesPath, sprintfAux]

theorem Sprintf_measurementsPath (g h : String) (p : Int) :
    Sprintf measurementsPath [FmtArg.str g, FmtArg.str h, FmtArg.int p] =
      "groups/" ++ g ++ "/processes/" ++ h ++ ":" ++ toString p ++
        "/measurements?granularity=PT24H&period=PT24H" := by
  apply String.ext
  simp [Sprintf, measurementsPath, sprintfAux]

theorem Sprintf_join (a b : String) :
    Sprintf "%s/%s" [FmtArg.str a, FmtArg.str b] = a ++ "/" ++ b := by
  apply String.ext
  simp [Sprintf, sprintfAux]

theorem Sprintf_alert_item (g a : String) :
    Sprintf "%s/%s" [FmtArg.str (Sprintf alertPath [FmtArg.str g]), FmtArg.str a] =
      "groups/" ++ g ++ "/alerts/" ++ a := by
  rw [Sprintf_join, Sprintf_alertPath]
  apply String.ext
  simp

/-! ## What the observed client hands back -/

theorem recorded_NewRequest {σ Ctx Req V : Type} (c : RequestDoer σ Ctx Req V) (st st1 : σ)
    (log : CallLog Ctx Req) (ctx : Ctx) (m p : String) (b : Option AcknowledgeRequest)
    (req : Req) (e : Option GoError) (h : c.NewRequest st ctx m p b = ((req, e), st1)) :
    c.recorded.NewRequest (st, log) ctx m p b =
      ((req, e), (st1, log ++ [Call.newRequest ctx m p b])) := by
  simp [RequestDoer.recorded, h]

theorem recorded_Do {σ Ctx Req V : Type} (c : RequestDoer σ Ctx Req V) (st st1 : σ)
    (log : CallLog Ctx Req) (ctx : Ctx) (req : Req) (v : V)
    (res : Option Response × Option GoError × V) (h : c.Do st ctx req v = (res, st1)) :
    c.recorded.Do (st, log) ctx req v = (res, (st1, log ++ [Call.doRequest ctx req])) := by
  simp [RequestDoer.recorded, h]

/-! ## Argument validation of the Alerts service -/

/-- C1: in the Alerts service, List with an empty groupID, Get with an empty groupID or
alertID, and Acknowledge with an empty groupID or alertID or a nil request return a nil
result, nil response metadata and an argument error and leave the collaborator
untouched; on an observed client the log stays empty: neither NewRequest nor Do is
called. -/
theorem alerts_guards_reject_without_request {σ Ctx Req Opts : Type}
    (enc : String → Opts → String × Option GoError)
    (sl : AlertsServiceOp σ Ctx Req AlertsResponse) (sa : AlertsServiceOp σ Ctx Req Alert)
    (st : σ) (ctx : Ctx) (groupID alertID : String) (listOptions : Option Opts)
    (params : Option AcknowledgeRequest) :
    (groupID = "" →
      (sl.List enc st ctx groupID listOptions).argFailure st ∧
      (sl.recorded.List enc (st, []) ctx groupID listOptions).argFailure (st, []) ∧
      (sl.recorded.List enc (st, []) ctx groupID listOptions).trace = []) ∧
    (groupID = "" ∨ alertID = "" →
      (sa.Get st ctx groupID alertID).argFailure st ∧
      (sa.recorded.Get (st, []) ctx groupID alertID).argFailure (st, []) ∧
      (sa.recorded.Get (st, []) ctx groupID alertID).trace = []) ∧
    (groupID = "" ∨ alertID = "" ∨ params = none →
      (sa.Acknowledge st ctx groupID alertID params).argFailure st ∧
      (sa.recorded.Acknowledge (st, []) ctx groupID alertID params).argFailure (st, []) ∧
      (sa.recorded.Acknowledge (st, []) ctx groupID alertID params).trace = []) := by
  refine ⟨?_, ?_, ?_⟩
  · intro hg
    simp [AlertsServiceOp.List, hg, Run.argFailure, Run.trace, NewArgError,
      GoError.isArgError]
  · intro h
    by_cases hg : groupID = ""
    · simp [AlertsServiceOp.Get, hg, Run.argFailure, Run.trace, NewArgError,
        GoError.isArgError]
    · have ha : alertID = "" := h.resolve_left hg
      simp [AlertsServiceOp.Get, hg, ha, Run.argFailure, Run.trace, NewArgError,
        GoError.isArgError]
  · intro h
    by_cases hg : groupID = ""
    · simp [AlertsServiceOp.Acknowledge, hg, Run.argFailure, Run.trace, NewArgError,
        GoError.isArgError]
    · by_cases ha : alertID = ""
      · simp [AlertsServiceOp.Acknowledge, hg, ha, Run.argFailure, Run.trace, NewArgError,
          GoError.isArgError]
      · have hp : params = none := (h.resolve_left hg).resolve_left ha
        simp [AlertsServiceOp.Acknowledge, hg, ha, hp, Run.argFailure, Run.trace,
          NewArgError, GoError.isArgError]

/-- Witness of C1: the three guarded calls on an observed client double, each with one
empty or nil argument. -/
theorem alerts_guards_reject_without_request_witness :
    ((demoAlertsList.recorded.List stubEncoder (0, []) () "" (some 2)).argFailure (0, []) ∧
      (demoAlertsList.recorded.List stubEncoder (0, []) () "" (some 2)).trace = []) ∧
    ((demoAlerts.recorded.Get (0, []) () "g1" "").argFailure (0, []) ∧
      (demoAlerts.recorded.Get (0, []) () "g1" "").trace = []) ∧
    ((demoAlerts.recorded.Acknowledge (0, []) () "g1" "x" none).argFailure (0, []) ∧
      (demoAlerts.recorded.Acknowledge (0, []) () "g1" "x" none).trace = []) :=
  ⟨((alerts_guards_reject_without_request stubEncoder demoAlertsList demoAlerts 0 () "" ""
      (some 2) none).1 rfl).2,
   ((alerts_guards_reject_without_request stubEncoder demoAlertsList demoAlerts 0 () "g1" ""
      (some 2) none).2.1 (Or.inr rfl)).2,
   ((alerts_guards_reject_without_request stubEncoder demoAlertsList demoAlerts 0 () "g1" "x"
      (some 2) none).2.2 (Or.inr (Or.inr rfl))).2⟩

/-! ## Requests of Alerts.Get and Alerts.Acknowledge -/

/-- C7: for non-empty groupID g and alertID a and every AcknowledgeRequest r (the one
with two empty fields included), Alerts.Acknowledge on an observed client passes
validation and makes exactly one NewRequest, as its first call, with PATCH, the path
`groups/g/alerts/a` and the body r; Alerts.Get makes exactly one NewRequest, as its
first call, with GET, the same path and no body. -/
theorem alerts_item_requests {σ Ctx Req : Type} (sa : AlertsServiceOp σ Ctx Req Alert)
    (st : σ) (ctx : Ctx) (g a : String) (r : AcknowledgeRequest) (hg : g ≠ "")
    (ha : a ≠ "") :
    ((sa.recorded.Acknowledge (st, []) ctx g a (some r)).trace.head? =
        some (Call.newRequest ctx "PATCH" ("groups/" ++ g ++ "/alerts/" ++ a) (some r)) ∧
      (sa.recorded.Acknowledge (st, []) ctx g a (some r)).trace.filter Call.isNewRequest =
        [Call.newRequest ctx "PATCH" ("groups/" ++ g ++ "/alerts/" ++ a) (some r)]) ∧
    ((sa.recorded.Get (st, []) ctx g a).trace.head? =
        some (Call.newRequest ctx "GET" ("groups/" ++ g ++ "/alerts/" ++ a) none) ∧
      (sa.recorded.Get (st, []) ctx g a).trace.filter Call.isNewRequest =
        [Call.newRequest ctx "GET" ("groups/" ++ g ++ "/alerts/" ++ a) none]) := by
  constructor
  · rcases hn : sa.Client.NewRequest st ctx "PATCH"
        ("groups/" ++ g ++ "/alerts/" ++ a) (some r) with ⟨⟨req, e⟩, st1⟩
    have hn' := recorded_NewRequest sa.Client st st1 [] ctx _ _ _ req e hn
    rcases e with _ | e
    · rcases hd : sa.Client.Do st1 ctx req Alert.zero with ⟨⟨resp, e, root⟩, st2⟩
      have hd' := recorded_Do sa.Client st1 st2
        [Call.newRequest ctx "PATCH" ("groups/" ++ g ++ "/alerts/" ++ a) (some r)]
        ctx req Alert.zero _ hd
      rcases e with _ | e <;>
        simp [AlertsServiceOp.Acknowledge, AlertsServiceOp.recorded, hg, ha,
          Sprintf_alert_item, hn', hd', Run.trace, Call.isNewRequest, MethodPatch]
    · simp [AlertsServiceOp.Acknowledge, AlertsServiceOp.recorded, hg, ha,
        Sprintf_alert_item, hn', Run.trace, Call.isNewRequest, MethodPatch]
  · rcases hn : sa.Client.NewRequest st ctx "GET"
        ("groups/" ++ g ++ "/alerts/" ++ a) none with ⟨⟨req, e⟩, st1⟩
    have hn' := recorded_NewRequest sa.Client st st1 [] ctx _ _ _ req e hn
    rcases e with _ | e
    · rcases hd : sa.Client.Do st1 ctx req Alert.zero with ⟨⟨resp, e, root⟩, st2⟩
      have hd' := recorded_Do sa.Client st1 st2
        [Call.newRequest ctx "GET" ("groups/" ++ g ++ "/alerts/" ++ a) none]
        ctx req Alert.zero _ hd
      rcases e with _ | e <;>
        simp [AlertsServiceOp.Get, AlertsServiceOp.recorded, hg, ha,
          Sprintf_alert_item, hn', hd', Run.trace, Call.isNewRequest, MethodGet]
    · simp [AlertsServiceOp.Get, AlertsServiceOp.recorded, hg, ha,
        Sprintf_alert_item, hn', Run.trace, Call.isNewRequest, MethodGet]

/-- Witness of C7: the request with both fields empty for group "g1" and alert "x". -/
theorem alerts_item_requests_witness :
    ((demoAlerts.recorded.Acknowledge (0, []) () "g1" "x" (some ⟨[], []⟩)).trace.head? =
        some (Call.newRequest () "PATCH" ("groups/" ++ "g1" ++ "/alerts/" ++ "x")
          (some ⟨[], []⟩)) ∧
      (demoAlerts.recorded.Acknowledge (0, []) () "g1" "x"
          (some ⟨[], []⟩)).trace.filter Call.isNewRequest =
        [Call.newRequest () "PATCH" ("groups/" ++ "g1" ++ "/alerts/" ++ "x")
          (some ⟨[], []⟩)]) ∧
    ((demoAlerts.recorded.Get (0, []) () "g1" "x").trace.head? =
        some (Call.newRequest () "GET" ("groups/" ++ "g1" ++ "/alerts/" ++ "x") none) ∧
      (demoAlerts.recorded.Get (0, []) () "g1" "x").trace.filter Call.isNewRequest =
        [Call.newRequest () "GET" ("groups/" ++ "g1" ++ "/alerts/" ++ "x") none]) :=
  alerts_item_requests demoAlerts 0 () "g1" "x" ⟨[], []⟩ (by decide) (by decide)

/-! ## The NewRequest of the List methods -/

theorem processes_list_newRequest {σ Ctx Req Opts : Type}
    (enc : String → Opts → String × Option GoError)
    (sp : ProcessesServiceOp σ Ctx Req processesResponse) (st : σ) (ctx : Ctx)
    (g : String) (o : Option Opts) (q : String)
    (hq : setListOptions enc (Sprintf processesPath [FmtArg.str g]) o = (q, none)) :
    (sp.recorded.List enc (st, []) ctx g o).trace.head? =
        some (Call.newRequest ctx "GET" q none) ∧
      (sp.recorded.List enc (st, []) ctx g o).trace.filter Call.isNewRequest =
        [Call.newRequest ctx "GET" q none] := by
  rcases hn : sp.Client.NewRequest st ctx "GET" q none with ⟨⟨req, e⟩, st1⟩
  have hn' := recorded_NewRequest sp.Client st st1 [] ctx _ _ _ req e hn
  rcases e with _ | e
  · rcases hd : sp.Client.Do st1 ctx req processesResponse.zero with
      ⟨⟨resp, e, root⟩, st2⟩
    have hd' := recorded_Do sp.Client st1 st2 [Call.newRequest ctx "GET" q none]
      ctx req processesResponse.zero _ hd
    rcases e with _ | e
    · rcases hl : root.Links with _ | l
      · simp [ProcessesServiceOp.List, ProcessesServiceOp.recorded, hq, hn', hd', hl,
          Run.trace, Call.isNewRequest, MethodGet]
      · rcases resp with _ | r <;>
          simp [ProcessesServiceOp.List, ProcessesServiceOp.recorded, hq, hn', hd', hl,
            Run.trace, Call.isNewRequest, MethodGet]
    · simp [ProcessesServiceOp.List, ProcessesServiceOp.recorded, hq, hn', hd',
        Run.trace, Call.isNewRequest, MethodGet]
  · simp [ProcessesServiceOp.List, ProcessesServiceOp.recorded, hq, hn',
      Run.trace, Call.isNewRequest, MethodGet]

theorem measurements_list_newRequest {σ Ctx Req Opts : Type}
    (enc : String → Opts → String × Option GoError)
    (sm : MeasurementsServiceOp σ Ctx Req measurementsResponse) (st : σ) (ctx : Ctx)
    (g h : String) (p : Int) (o : Option Opts) (q : String)
    (hq : setListOptions enc
      (Sprintf measurementsPath [FmtArg.str g, FmtArg.str h, FmtArg.int p]) o = (q, none)) :
    (sm.recorded.List enc (st, []) ctx g h p o).trace.head? =
        some (Call.newRequest ctx "GET" q none) ∧
      (sm.recorded.List enc (st, []) ctx g h p o).trace.filter Call.isNewRequest =
        [Call.newRequest ctx "GET" q none] := by
  rcases hn : sm.Client.NewRequest st ctx "GET" q none with ⟨⟨req, e⟩, st1⟩
  have hn' := recorded_NewRequest sm.Client st st1 [] ctx _ _ _ req e hn
  rcases e with _ | e
  · rcases hd : sm.Client.Do st1 ctx req measurementsResponse.zero with
      ⟨⟨resp, e, root⟩, st2⟩
    have hd' := recorded_Do sm.Client st1 st2 [Call.newRequest ctx "GET" q none]
      ctx req measurementsResponse.zero _ hd
    rcases e with _ | e
    · rcases hl : root.Links with _ | l
      · simp [MeasurementsServiceOp.List, MeasurementsServiceOp.recorded, hq, hn', hd', hl,
          Run.trace, Call.isNewRequest, MethodGet]
      · rcases resp with _ | r <;>
          simp [MeasurementsServiceOp.List, MeasurementsServiceOp.recorded, hq, hn', hd',
            hl, Run.trace, Call.isNewRequest, MethodGet]
    · simp [MeasurementsServiceOp.List, MeasurementsServiceOp.recorded, hq, hn', hd',
        Run.trace, Call.isNewRequest, MethodGet]
  · simp [MeasurementsServiceOp.List, MeasurementsServiceOp.recorded, hq, hn',
      Run.trace, Call.isNewRequest, MethodGet]

/-! ## Processes and Measurements with an empty groupID -/

/-- C2: Processes.List and Measurements.List make no check of groupID. Called with the
empty groupID and nil options on an observed client, each makes exactly one NewRequest,
as its first call, on the paths `groups//processes` and
`groups//processes/host1:27017/measurements?...`; on a client double whose calls
succeed both make one NewRequest and one Do and return a nil error. -/
theorem lists_with_empty_groupID_issue_request {σ Ctx Req Opts : Type}
    (enc : String → Opts → String × Option GoError)
    (sp : ProcessesServiceOp σ Ctx Req processesResponse)
    (sm : MeasurementsServiceOp σ Ctx Req measurementsResponse) (st : σ) (ctx : Ctx) :
    ((sp.recorded.List enc (st, []) ctx "" none).trace.head? =
        some (Call.newRequest ctx "GET" "groups//processes" none) ∧
      (sp.recorded.List enc (st, []) ctx "" none).trace.filter Call.isNewRequest =
        [Call.newRequest ctx "GET" "groups//processes" none]) ∧
    ((sm.recorded.List enc (st, []) ctx "" "host1" 27017 none).trace.head? =
        some (Call.newRequest ctx "GET"
          "groups//processes/host1:27017/measurements?granularity=PT24H&period=PT24H"
          none) ∧
      (sm.recorded.List enc (st, []) ctx "" "host1" 27017 none).trace.filter
          Call.isNewRequest =
        [Call.newRequest ctx "GET"
          "groups//processes/host1:27017/measurements?granularity=PT24H&period=PT24H"
          none]) ∧
    (demoProcesses.recorded.List stubEncoder (0, []) () "" none).trace =
      [Call.newRequest () "GET" "groups//processes" none,
       Call.doRequest () "GET groups//processes"] ∧
    (∃ v resp, (demoProcesses.recorded.List stubEncoder (0, []) () "" none).out =
      Outcome.returned v resp none) ∧
    (demoMeasurements.recorded.List stubEncoder (0, []) () "" "host1" 27017 none).trace =
      [Call.newRequest () "GET"
        "groups//processes/host1:27017/measurements?granularity=PT24H&period=PT24H" none,
       Call.doRequest ()
        "GET groups//processes/host1:27017/measurements?granularity=PT24H&period=PT24H"] ∧
    (∃ v resp, (demoMeasurements.recorded.List stubEncoder (0, []) () "" "host1" 27017
      none).out = Outcome.returned v resp none) := by
  refine ⟨?_, ?_, ?_, ?_, ?_, ?_⟩
  · have hp : Sprintf processesPath [FmtArg.str ""] = "groups//processes" := by decide
    exact processes_list_newRequest enc sp st ctx "" none _ (by simp [setListOptions, hp])
  · have hm : Sprintf measurementsPath
        [FmtArg.str "", FmtArg.str "host1", FmtArg.int 27017] =
        "groups//processes/host1:27017/measurements?granularity=PT24H&period=PT24H" := by
      decide
    exact measurements_list_newRequest enc sm st ctx "" "host1" 27017 none _
      (by simp [setListOptions, hm])
  · decide
  · exact ⟨_, _, rfl⟩
  · decide
  · exact ⟨_, _, rfl⟩

/-! ## Links of the envelope and the returned metadata -/

theorem linksCopied_some (l : List (Option Link)) (r : Response) :
    linksCopied (some l) r { r with Links := some l } := by
  simp [linksCopied]

theorem linksCopied_none (r : Response) : linksCopied none r r := by
  simp [linksCopied]

/-- C3: in Alerts.List, Processes.List and Measurements.List, when Do succeeds with the
decoded envelope E and the response metadata R, the method returns the sequence of the
envelope with a nil error and metadata whose Links are E.links if these are non-nil,
every other field being that of R, and which is R itself if E.links is nil. -/
theorem list_copies_envelope_links {σ Ctx Req Opts : Type}
    (enc : String → Opts → String × Option GoError)
    (sa : AlertsServiceOp σ Ctx Req AlertsResponse)
    (sp : ProcessesServiceOp σ Ctx Req processesResponse)
    (sm : MeasurementsServiceOp σ Ctx Req measurementsResponse)
    (st st1 st2 : σ) (ctx : Ctx) (groupID host : String) (port : Int)
    (listOptions : Option Opts) (path : String) (req : Req) (R : Response)
    (EA : AlertsResponse) (EP : processesResponse) (EM : measurementsResponse) :
    (groupID ≠ "" →
      setListOptions enc (Sprintf alertPath [FmtArg.str groupID]) listOptions = (path, none) →
      sa.Client.NewRequest st ctx MethodGet path none = ((req, none), st1) →
      sa.Client.Do st1 ctx req AlertsResponse.zero = ((some R, none, EA), st2) →
      ∃ R', (sa.List enc st ctx groupID listOptions).out =
          Outcome.returned EA.Results (some R') none ∧ linksCopied EA.Links R R') ∧
    (setListOptions enc (Sprintf processesPath [FmtArg.str groupID]) listOptions =
        (path, none) →
      sp.Client.NewRequest st ctx MethodGet path none = ((req, none), st1) →
      sp.Client.Do st1 ctx req processesResponse.zero = ((some R, none, EP), st2) →
      ∃ R', (sp.List enc st ctx groupID listOptions).out =
          Outcome.returned EP.Results (some R') none ∧ linksCopied EP.Links R R') ∧
    (setListOptions enc
        (Sprintf measurementsPath [FmtArg.str groupID, FmtArg.str host, FmtArg.int port])
        listOptions = (path, none) →
      sm.Client.NewRequest st ctx MethodGet path none = ((req, none), st1) →
      sm.Client.Do st1 ctx req measurementsResponse.zero = ((some R, none, EM), st2) →
      ∃ R', (sm.List enc st ctx groupID host port listOptions).out =
          Outcome.returned EM.Measurements (some R') none ∧ linksCopied EM.Links R R') := by
  refine ⟨?_, ?_, ?_⟩
  · intro hg hp hn hd
    rcases hl : EA.Links with _ | l
    · exact ⟨R, by simp [AlertsServiceOp.List, hg, hp, hn, hd, hl], linksCopied_none R⟩
    · exact ⟨{ R with Links := some l }, by simp [AlertsServiceOp.List, hg, hp, hn, hd, hl],
        linksCopied_some l R⟩
  · intro hp hn hd
    rcases hl : EP.Links with _ | l
    · exact ⟨R, by simp [ProcessesServiceOp.List, hp, hn, hd, hl], linksCopied_none R⟩
    · exact ⟨{ R with Links := some l }, by simp [ProcessesServiceOp.List, hp, hn, hd, hl],
        linksCopied_some l R⟩
  · intro hp hn hd
    rcases hl : EM.Links with _ | l
    · exact ⟨R, by simp [MeasurementsServiceOp.List, hp, hn, hd, hl], linksCopied_none R⟩
    · exact ⟨{ R with Links := some l },
        by simp [MeasurementsServiceOp.List, hp, hn, hd, hl], linksCopied_some l R⟩

/-- Witness of C3: client doubles whose Do answers status 200 with the links `[prev]`
and envelopes with the links `[next]` (alerts), `[]` (processes) and nil
(measurements). -/
theorem list_copies_envelope_links_witness :
    (∃ R', (demoAlertsList.List stubEncoder 0 () "g1" (some 2)).out =
          Outcome.returned (some []) (some R') none ∧
        linksCopied (some [some ⟨"next", "u1"⟩]) demoResponse R') ∧
    (∃ R', (demoProcesses.List stubEncoder 0 () "g1" (some 2)).out =
          Outcome.returned (some [⟨"a.example.com", 27017⟩]) (some R') none ∧
        linksCopied (some []) demoResponse R') ∧
    (∃ R', (demoMeasurements.List stubEncoder 0 () "g1" "host1" 27017 (some 2)).out =
          Outcome.returned (some [⟨none, "CPU"⟩]) (some R') none ∧
        linksCopied none demoResponse R') :=
  ⟨(list_copies_envelope_links stubEncoder demoAlertsList demoProcesses demoMeasurements
      0 1 2 () "g1" "host1" 27017 (some 2) "groups/g1/alerts&pageNum=2"
      "GET groups/g1/alerts&pageNum=2" demoResponse demoAlertsEnvelope demoProcessesEnvelope
      demoMeasurementsEnvelope).1 (by decide) (by decide) rfl rfl,
   (list_copies_envelope_links stubEncoder demoAlertsList demoProcesses demoMeasurements
      0 1 2 () "g1" "host1" 27017 (some 2) "groups/g1/processes&pageNum=2"
      "GET groups/g1/processes&pageNum=2" demoResponse demoAlertsEnvelope
      demoProcessesEnvelope demoMeasurementsEnvelope).2.1 (by decide) rfl rfl,
   (list_copies_envelope_links stubEncoder demoAlertsList demoProcesses demoMeasurements
      0 1 2 () "g1" "host1" 27017 (some 2)
      "groups/g1/processes/host1:27017/measurements?granularity=PT24H&period=PT24H&pageNum=2"
      "GET groups/g1/processes/host1:27017/measurements?granularity=PT24H&period=PT24H&pageNum=2"
      demoResponse demoAlertsEnvelope demoProcessesEnvelope demoMeasurementsEnvelope).2.2
      (by decide) rfl rfl⟩

/-! ## Requests of Measurements.List -/

/-- C4: for every groupID g, host h and port p, Measurements.List with nil options on
an observed client makes exactly one NewRequest, as its first call, with GET, no body
and the path `groups/g/processes/h:p/measurements?granularity=PT24H&period=PT24H`; with
options o the list-options encoder is applied to that same path: if it gives the path q
the one NewRequest, again the first call, has GET, q and no body, and if it fails its
error is returned and no call is made. For ("g1", "host1", 27017, nil) the path is
`groups/g1/processes/host1:27017/measurements?granularity=PT24H&period=PT24H`. -/
theorem measurements_list_request_path {σ Ctx Req Opts : Type}
    (enc : String → Opts → String × Option GoError)
    (sm : MeasurementsServiceOp σ Ctx Req measurementsResponse) (st : σ) (ctx : Ctx)
    (g h : String) (p : Int) :
    ((sm.recorded.List enc (st, []) ctx g h p none).trace.head? =
        some (Call.newRequest ctx "GET"
          ("groups/" ++ g ++ "/processes/" ++ h ++ ":" ++ toString p ++
            "/measurements?granularity=PT24H&period=PT24H") none) ∧
      (sm.recorded.List enc (st, []) ctx g h p none).trace.filter Call.isNewRequest =
        [Call.newRequest ctx "GET"
          ("groups/" ++ g ++ "/processes/" ++ h ++ ":" ++ toString p ++
            "/measurements?granularity=PT24H&period=PT24H") none]) ∧
    (∀ o : Opts,
      (∀ q, enc ("groups/" ++ g ++ "/processes/" ++ h ++ ":" ++ toString p ++
            "/measurements?granularity=PT24H&period=PT24H") o = (q, none) →
          (sm.recorded.List enc (st, []) ctx g h p (some o)).trace.head? =
            some (Call.newRequest ctx "GET" q none) ∧
          (sm.recorded.List enc (st, []) ctx g h p (some o)).trace.filter
            Call.isNewRequest = [Call.newRequest ctx "GET" q none]) ∧
      (∀ q e, enc ("groups/" ++ g ++ "/processes/" ++ h ++ ":" ++ toString p ++
            "/measurements?granularity=PT24H&period=PT24H") o = (q, some e) →
          (sm.recorded.List enc (st, []) ctx g h p (some o)).out =
            Outcome.returned none none (some e) ∧
          (sm.recorded.List enc (st, []) ctx g h p (some o)).state = (st, []) ∧
          (sm.recorded.List enc (st, []) ctx g h p (some o)).trace = [])) ∧
    ((sm.recorded.List enc (st, []) ctx "g1" "host1" 27017 none).trace.head? =
        some (Call.newRequest ctx "GET"
          "groups/g1/processes/host1:27017/measurements?granularity=PT24H&period=PT24H"
          none) ∧
      (sm.recorded.List enc (st, []) ctx "g1" "host1" 27017 none).trace.filter
          Call.isNewRequest =
        [Call.newRequest ctx "GET"
          "groups/g1/processes/host1:27017/measurements?granularity=PT24H&period=PT24H"
          none]) := by
  refine ⟨?_, ?_, ?_⟩
  · exact measurements_list_newRequest enc sm st ctx g h p none _
      (by simp [setListOptions, Sprintf_measurementsPath])
  · intro o
    constructor
    · intro q hq
      exact measurements_list_newRequest enc sm st ctx g h p (some o) q
        (by simp [setListOptions, Sprintf_measurementsPath, hq])
    · intro q e hq
      simp [MeasurementsServiceOp.List, setListOptions, Sprintf_measurementsPath, hq,
        Run.trace]
  · have hm : Sprintf measurementsPath
        [FmtArg.str "g1", FmtArg.str "host1", FmtArg.int 27017] =
        "groups/g1/processes/host1:27017/measurements?granularity=PT24H&period=PT24H" := by
      decide
    exact measurements_list_newRequest enc sm st ctx "g1" "host1" 27017 none _
      (by simp [setListOptions, hm])

/-- Witness of C4: with the options of page 2 and an encoder double that appends
`&pageNum=2`, the one NewRequest has the fixed path followed by `&pageNum=2`. -/
theorem measurements_list_request_path_witness :
    (demoMeasurements.recorded.List stubEncoder (0, []) () "g1" "host1" 27017
        (some 2)).trace.head? =
      some (Call.newRequest () "GET"
        "groups/g1/processes/host1:27017/measurements?granularity=PT24H&period=PT24H&pageNum=2"
        none) ∧
    (demoMeasurements.recorded.List stubEncoder (0, []) () "g1" "host1" 27017
        (some 2)).trace.filter Call.isNewRequest =
      [Call.newRequest () "GET"
        "groups/g1/processes/host1:27017/measurements?granularity=PT24H&period=PT24H&pageNum=2"
        none] :=
  ((measurements_list_request_path stubEncoder demoMeasurements 0 () "g1" "host1"
    27017).2.1 2).1
    "groups/g1/processes/host1:27017/measurements?granularity=PT24H&period=PT24H&pageNum=2"
    (by decide)

/-! ## Errors of Do in Alerts.Get -/

/-- C5: for non-empty groupID and alertID, when NewRequest succeeds and Do returns the
metadata R with a non-nil error e, Alerts.Get returns a nil Alert, the metadata R and
the error e. -/
theorem alerts_get_propagates_do_error {σ Ctx Req : Type}
    (sa : AlertsServiceOp σ Ctx Req Alert) (st st1 st2 : σ) (ctx : Ctx)
    (groupID alertID : String) (req : Req) (R : Option Response) (e : GoError)
    (root : Alert) (hg : groupID ≠ "") (ha : alertID ≠ "")
    (hn : sa.Client.NewRequest st ctx "GET" ("groups/" ++ groupID ++ "/alerts/" ++ alertID)
      none = ((req, none), st1))
    (hd : sa.Client.Do st1 ctx req Alert.zero = ((R, some e, root), st2)) :
    (sa.Get st ctx groupID alertID).out = Outcome.returned none R (some e) := by
  have hn' : sa.Client.NewRequest st ctx MethodGet
      ("groups/" ++ groupID ++ "/alerts/" ++ alertID) none = ((req, none), st1) := hn
  simp [AlertsServiceOp.Get, hg, ha, Sprintf_alert_item, hn', hd]

/-- Witness of C5: a double answering `GET groups/g1/alerts/x` with status 404 and an
API error. -/
theorem alerts_get_propagates_do_error_witness :
    ((⟨stubDoer none (some ⟨404, none⟩) (some (GoError.api 404 "not found")) Alert.zero⟩ :
        AlertsServiceOp Nat Unit String Alert).Get 0 () "g1" "x").out =
      Outcome.returned none (some ⟨404, none⟩) (some (GoError.api 404 "not found")) :=
  alerts_get_propagates_do_error
    ⟨stubDoer none (some ⟨404, none⟩) (some (GoError.api 404 "not found")) Alert.zero⟩
    0 1 2 () "g1" "x" "GET groups/g1/alerts/x" (some ⟨404, none⟩)
    (GoError.api 404 "not found") Alert.zero (by decide) (by decide) rfl rfl

/-! ## Results of Processes.List -/

/-- C6, as stated, fails: on a double whose NewRequest and Do both give a nil error,
whose Do gives nil response metadata and whose envelope has non-nil links,
Processes.List for groupID "g1" with nil options does not return the results of the
envelope: it panics, on the assignment to the links of the nil metadata. -/
theorem processes_list_nil_metadata_panics :
    (nilMetadataProcesses.Client.NewRequest 0 () "GET" "groups/g1/processes" none).1.2 =
      none ∧
    (nilMetadataProcesses.Client.Do 1 () "GET groups/g1/processes"
      processesResponse.zero).1.2.1 = none ∧
    (nilMetadataProcesses.List stubEncoder 0 () "g1" none).out = Outcome.panicked ∧
    ¬ ∃ v resp err, (nilMetadataProcesses.List stubEncoder 0 () "g1" none).out =
      Outcome.returned v resp err := by
  refine ⟨rfl, rfl, rfl, ?_⟩
  rintro ⟨v, resp, err, h⟩
  have hp : (nilMetadataProcesses.List stubEncoder 0 () "g1" none).out =
      Outcome.panicked := rfl
  rw [hp] at h
  cases h

/-- C6, amended: for every groupID g, Processes.List with nil options on an observed
client makes exactly one NewRequest, as its first call, with GET, no body and the path
`groups/g/processes`; when NewRequest gives a nil error and Do gives a nil error and
the envelope E, and the response metadata of Do is non-nil or the links of E are nil,
it returns the results sequence of E as it is, with a nil error. -/
theorem processes_list_returns_results {σ Ctx Req Opts : Type}
    (enc : String → Opts → String × Option GoError)
    (sp : ProcessesServiceOp σ Ctx Req processesResponse) (st st1 st2 : σ) (ctx : Ctx)
    (g : String) (req : Req) (resp : Option Response) (E : processesResponse) :
    ((sp.recorded.List enc (st, []) ctx g none).trace.head? =
        some (Call.newRequest ctx "GET" ("groups/" ++ g ++ "/processes") none) ∧
      (sp.recorded.List enc (st, []) ctx g none).trace.filter Call.isNewRequest =
        [Call.newRequest ctx "GET" ("groups/" ++ g ++ "/processes") none]) ∧
    (sp.Client.NewRequest st ctx "GET" ("groups/" ++ g ++ "/processes") none =
        ((req, none), st1) →
      sp.Client.Do st1 ctx req processesResponse.zero = ((resp, none, E), st2) →
      resp ≠ none ∨ E.Links = none →
      ∃ md, (sp.List enc st ctx g none).out = Outcome.returned E.Results md none) := by
  constructor
  · exact processes_list_newRequest enc sp st ctx g none _
      (by simp [setListOptions, Sprintf_processesPath])
  · intro hn hd hr
    have hn' : sp.Client.NewRequest st ctx MethodGet ("groups/" ++ g ++ "/processes") none =
        ((req, none), st1) := hn
    unfold ProcessesServiceOp.List
    simp only [setListOptions, Sprintf_processesPath, hn', hd]
    rcases hl : E.Links with _ | l
    · exact ⟨resp, rfl⟩
    · rcases resp with _ | r
      · simp [hl] at hr
      · exact ⟨_, rfl⟩

/-- Witness of C6: for groupID g1 and an envelope without links, with the one result
(a.example.com, 27017) and the total count 1, the result is that one Process, with a
nil error. -/
theorem processes_list_returns_results_witness :
    ∃ md, ((⟨stubDoer none (some ⟨200, none⟩) none
        ⟨none, some [⟨"a.example.com", 27017⟩], 1⟩⟩ :
        ProcessesServiceOp Nat Unit String processesResponse).List stubEncoder 0 () "g1"
        none).out = Outcome.returned (some [⟨"a.example.com", 27017⟩]) md none :=
  (processes_list_returns_results stubEncoder
    ⟨stubDoer none (some ⟨200, none⟩) none ⟨none, some [⟨"a.example.com", 27017⟩], 1⟩⟩
    0 1 2 () "g1" "GET groups/g1/processes" (some ⟨200, none⟩)
    ⟨none, some [⟨"a.example.com", 27017⟩], 1⟩).2 rfl rfl (Or.inl (by decide))

/-! ## UTF-8 coercion is the identity on valid strings -/

theorem leadInfo_spec {b sz lo hi : Nat} (h : leadInfo b = some (sz, lo, hi)) :
    (sz = 2 ∧ 0xC2 ≤ b ∧ b ≤ 0xDF ∧ lo = 0x80 ∧ hi = 0xBF) ∨
    (sz = 3 ∧ b = 0xE0 ∧ lo = 0xA0 ∧ hi = 0xBF) ∨
    (sz = 3 ∧ 0xE1 ≤ b ∧ b ≤ 0xEF ∧ b ≠ 0xED ∧ lo = 0x80 ∧ hi = 0xBF) ∨
    (sz = 3 ∧ b = 0xED ∧ lo = 0x80 ∧ hi = 0x9F) ∨
    (sz = 4 ∧ b = 0xF0 ∧ lo = 0x90 ∧ hi = 0xBF) ∨
    (sz = 4 ∧ 0xF1 ≤ b ∧ b ≤ 0xF3 ∧ lo = 0x80 ∧ hi = 0xBF) ∨
    (sz = 4 ∧ b = 0xF4 ∧ lo = 0x80 ∧ hi = 0x8F) := by
  unfold leadInfo at h
  repeat' split at h
  all_goals simp at h
  all_goals omega

theorem byte_eq_iff (n : Nat) (b : Byte) (h : n = b.val) : byte n = b := by
  apply Fin.ext
  simp [byte, h]

theorem DecodeRune_spec {s0 : Byte} {rest : List Byte} {r size : Nat}
    (h : DecodeRune s0 rest = some (r, size)) :
    ∃ pre rest', rest = pre ++ rest' ∧ pre.length + 1 = size ∧ EncodeRune r = s0 :: pre ∧
      r.isValidChar := by
  unfold DecodeRune at h
  split at h
  · rename_i hlt
    simp at h
    obtain ⟨rfl, rfl⟩ := h
    refine ⟨[], rest, rfl, rfl, ?_, ?_⟩
    · unfold EncodeRune
      rw [if_pos hlt, byte_eq_iff _ s0 rfl]
    · left; omega
  · split at h
    · simp at h
    · rename_i sz lo hi hl
      have hs := leadInfo_spec hl
      have h0 := s0.isLt
      split at h
      · simp at h
      · rcases rest with _ | ⟨s1, r1⟩
        · simp at h
        · have h1 := s1.isLt
          dsimp only at h
          split at h
          · simp at h
          · split at h
            · simp at h
              obtain ⟨rfl, rfl⟩ := h
              refine ⟨[s1], r1, rfl, rfl, ?_, ?_⟩
              · unfold EncodeRune
                rw [if_neg (by omega), if_pos (by omega)]
                rw [byte_eq_iff _ s0 (by omega), byte_eq_iff _ s1 (by omega)]
              · left; omega
            · rcases r1 with _ | ⟨s2, r2⟩
              · simp at h
              · have h2 := s2.isLt
                dsimp only at h
                split at h
                · simp at h
                · split at h
                  · simp at h
                    obtain ⟨rfl, rfl⟩ := h
                    refine ⟨[s1, s2], r2, rfl, rfl, ?_, ?_⟩
                    · unfold EncodeRune
                      rw [if_neg (by omega), if_neg (by omega), if_pos (by omega)]
                      rw [byte_eq_iff _ s0 (by omega), byte_eq_iff _ s1 (by omega),
                        byte_eq_iff _ s2 (by omega)]
                    · unfold Nat.isValidChar; omega
                  · rcases r2 with _ | ⟨s3, r3⟩
                    · simp at h
                    · have h3 := s3.isLt
                      dsimp only at h
                      split at h
                      · simp at h
                      · simp at h
                        obtain ⟨rfl, rfl⟩ := h
                        refine ⟨[s1, s2, s3], r3, rfl, rfl, ?_, ?_⟩
                        · unfold EncodeRune
                          rw [if_neg (by omega), if_neg (by omega), if_neg (by omega)]
                          rw [byte_eq_iff _ s0 (by omega), byte_eq_iff _ s1 (by omega),
                            byte_eq_iff _ s2 (by omega), byte_eq_iff _ s3 (by omega)]
                        · unfold Nat.isValidChar; omega

theorem toNat_ofNat_of_valid {r : Nat} (h : r.isValidChar) : (Char.ofNat r).toNat = r := by
  simp [Char.ofNat, h, Char.toNat, Char.ofNatAux, UInt32.toNat]

theorem toValidUTF8Aux_skip (pre rest : List Byte) :
    toValidUTF8Aux pre.length (pre ++ rest) = toValidUTF8Aux 0 rest := by
  induction pre with
  | nil => rfl
  | cons b pre ih => simpa [toValidUTF8Aux] using ih

theorem ValidStringAux_skip (pre rest : List Byte) :
    ValidStringAux pre.length (pre ++ rest) = ValidStringAux 0 rest := by
  induction pre with
  | nil => rfl
  | cons b pre ih => simpa [ValidStringAux] using ih

theorem encode_toValid_of_valid (n : Nat) :
    ∀ s : List Byte, s.length ≤ n → ValidStringAux 0 s = true →
      (toValidUTF8Aux 0 s).flatMap (fun c => EncodeRune c.toNat) = s := by
  induction n with
  | zero =>
    intro s hs _
    have : s = [] := List.length_eq_zero.mp (Nat.le_zero.mp hs)
    subst this
    rfl
  | succ n ih =>
    intro s hs hv
    rcases s with _ | ⟨s0, rest⟩
    · rfl
    · unfold ValidStringAux at hv
      unfold toValidUTF8Aux
      rcases hd : DecodeRune s0 rest with _ | ⟨r, size⟩
      · simp [hd] at hv
      · obtain ⟨pre, rest', rfl, hsz, henc, hvalid⟩ := DecodeRune_spec hd
        have hsz' : size - 1 = pre.length := by omega
        simp only [hd, hsz'] at hv ⊢
        rw [ValidStringAux_skip] at hv
        rw [toValidUTF8Aux_skip, List.flatMap_cons, toNat_ofNat_of_valid hvalid, henc,
          ih rest' (by simp at hs; omega) hv]
        simp

theorem encodeUTF8_toValidUTF8 (s : GoString) (h : ValidString s = true) :
    encodeUTF8 (toValidUTF8 s) = s :=
  encode_toValid_of_valid s.length s (Nat.le_refl _) h


/-! ## JSON encoding of the acknowledgement payload -/

/-- C8, as stated, fails: the request whose acknowledgedUntil is the one byte 0xFF (a
Go string that is not valid UTF-8) is written with the value U+FFFD, not the value of
the field, and decoding the object gives the three bytes EF BF BD, not the request. -/
theorem acknowledgeRequest_invalid_utf8_not_restored :
    (AcknowledgeRequest.marshal ⟨[0xFF], []⟩).member "acknowledgedUntil" =
      some (String.mk [Char.ofNat 0xFFFD]) ∧
    encodeUTF8 (String.mk [Char.ofNat 0xFFFD]) ≠ [0xFF] ∧
    AcknowledgeRequest.unmarshal (AcknowledgeRequest.marshal ⟨[0xFF], []⟩) =
      ⟨[0xEF, 0xBF, 0xBD], []⟩ ∧
    AcknowledgeRequest.unmarshal (AcknowledgeRequest.marshal ⟨[0xFF], []⟩) ≠
      ⟨[0xFF], []⟩ := by
  decide

/-- C8, amended: under the omit-if-empty encoding of its field tags, the object written
for an AcknowledgeRequest has the key acknowledgedUntil exactly when that field is
non-empty and the key acknowledgementComment exactly when that field is non-empty, and
no other key, each with the value of the field coerced to valid UTF-8; a request with
only acknowledgementComment set is written without acknowledgedUntil; decoding the
object gives the request with both fields so coerced, and for a field that is valid
UTF-8 the value written is the value of the field, so that a request whose two fields
are valid UTF-8 is given back as it was. -/
theorem acknowledgeRequest_omitempty_roundtrip (r : AcknowledgeRequest) :
    ("acknowledgedUntil" ∈ r.marshal.map Prod.fst ↔ r.AcknowledgedUntil ≠ []) ∧
    ("acknowledgementComment" ∈ r.marshal.map Prod.fst ↔ r.AcknowledgementComment ≠ []) ∧
    (r.marshal.member "acknowledgedUntil" =
      if r.AcknowledgedUntil = [] then none else some (toValidUTF8 r.AcknowledgedUntil)) ∧
    (r.marshal.member "acknowledgementComment" =
      if r.AcknowledgementComment = [] then none
      else some (toValidUTF8 r.AcknowledgementComment)) ∧
    (∀ k v, (k, v) ∈ r.marshal → k = "acknowledgedUntil" ∨ k = "acknowledgementComment") ∧
    (∀ c, "acknowledgedUntil" ∉ (AcknowledgeRequest.marshal ⟨[], c⟩).map Prod.fst) ∧
    (AcknowledgeRequest.marshal ⟨[], notedBytes⟩ = [("acknowledgementComment", "noted")]) ∧
    (AcknowledgeRequest.unmarshal r.marshal =
      ⟨encodeUTF8 (toValidUTF8 r.AcknowledgedUntil),
        encodeUTF8 (toValidUTF8 r.AcknowledgementComment)⟩) ∧
    (ValidString r.AcknowledgedUntil = true →
      encodeUTF8 (toValidUTF8 r.AcknowledgedUntil) = r.AcknowledgedUntil) ∧
    (ValidString r.AcknowledgementComment = true →
      encodeUTF8 (toValidUTF8 r.AcknowledgementComment) = r.AcknowledgementComment) ∧
    (ValidString r.AcknowledgedUntil = true → ValidString r.AcknowledgementComment = true →
      AcknowledgeRequest.unmarshal r.marshal = r) := by
  have m11 : matchesField "acknowledgedUntil" "acknowledgedUntil" = true := by decide
  have m22 : matchesField "acknowledgementComment" "acknowledgementComment" = true := by
    decide
  have m12 : matchesField "acknowledgedUntil" "acknowledgementComment" = false := by decide
  have m21 : matchesField "acknowledgementComment" "acknowledgedUntil" = false := by decide
  have hne : "acknowledgedUntil" ≠ "acknowledgementComment" := by decide
  have hne' : "acknowledgementComment" ≠ "acknowledgedUntil" := by decide
  have he : encodeUTF8 (toValidUTF8 []) = [] := by decide
  obtain ⟨u, c⟩ := r
  have hun : AcknowledgeRequest.unmarshal (AcknowledgeRequest.marshal ⟨u, c⟩) =
      ⟨encodeUTF8 (toValidUTF8 u), encodeUTF8 (toValidUTF8 c)⟩ := by
    rcases u with _ | ⟨u0, u⟩ <;> rcases c with _ | ⟨c0, c⟩ <;>
      simp [AcknowledgeRequest.unmarshal, AcknowledgeRequest.marshal,
        AcknowledgeRequest.fields, marshalFields, JSONObject.member, List.find?,
        m11, m22, m12, m21, he]
  refine ⟨?_, ?_, ?_, ?_, ?_, ?_, by decide, hun, ?_, ?_, ?_⟩
  · rcases u with _ | ⟨u0, u⟩ <;> rcases c with _ | ⟨c0, c⟩ <;>
      simp [AcknowledgeRequest.marshal, AcknowledgeRequest.fields, marshalFields, hne]
  · rcases u with _ | ⟨u0, u⟩ <;> rcases c with _ | ⟨c0, c⟩ <;>
      simp [AcknowledgeRequest.marshal, AcknowledgeRequest.fields, marshalFields, hne']
  · rcases u with _ | ⟨u0, u⟩ <;> rcases c with _ | ⟨c0, c⟩ <;>
      simp [AcknowledgeRequest.marshal, AcknowledgeRequest.fields, marshalFields,
        JSONObject.member, List.find?, m11, m22, m12, m21]
  · rcases u with _ | ⟨u0, u⟩ <;> rcases c with _ | ⟨c0, c⟩ <;>
      simp [AcknowledgeRequest.marshal, AcknowledgeRequest.fields, marshalFields,
        JSONObject.member, List.find?, m11, m22, m12, m21]
  · intro k v
    rcases u with _ | ⟨u0, u⟩ <;> rcases c with _ | ⟨c0, c⟩ <;>
      simp [AcknowledgeRequest.marshal, AcknowledgeRequest.fields, marshalFields]
    all_goals tauto
  · intro c'
    rcases c' with _ | ⟨c0, c'⟩ <;>
      simp [AcknowledgeRequest.marshal, AcknowledgeRequest.fields, marshalFields, hne]
  · exact encodeUTF8_toValidUTF8 u
  · exact encodeUTF8_toValidUTF8 c
  · intro hu hc
    rw [hun, encodeUTF8_toValidUTF8 u hu, encodeUTF8_toValidUTF8 c hc]

/-- Witness of C8: the request with only acknowledgementComment set, to the ASCII
string `noted`, and the request whose acknowledgedUntil is the two bytes C3 A9 of the
letter e with acute accent, are given back as they were. -/
theorem acknowledgeRequest_omitempty_roundtrip_witness :
    AcknowledgeRequest.unmarshal (AcknowledgeRequest.marshal ⟨[], notedBytes⟩) =
      ⟨[], notedBytes⟩ ∧
    AcknowledgeRequest.unmarshal (AcknowledgeRequest.marshal ⟨[0xC3, 0xA9], notedBytes⟩) =
      ⟨[0xC3, 0xA9], notedBytes⟩ :=
  ⟨(acknowledgeRequest_omitempty_roundtrip ⟨[], notedBytes⟩).2.2.2.2.2.2.2.2.2.2
      (by decide) (by decide),
   (acknowledgeRequest_omitempty_roundtrip ⟨[0xC3, 0xA9], notedBytes⟩).2.2.2.2.2.2.2.2.2.2
      (by decide) (by decide)⟩

/-! ## One round trip per call -/

theorem alerts_get_roundTrip {σ Ctx Req : Type} (sa : AlertsServiceOp σ Ctx Req Alert)
    (st : σ) (ctx : Ctx) (g a : String) :
    (sa.recorded.Get (st, []) ctx g a).singleRoundTrip sa.Client.NewRequest st := by
  by_cases hg : g = ""
  · simp [AlertsServiceOp.Get, hg, Run.singleRoundTrip, Run.trace]
  by_cases ha : a = ""
  · simp [AlertsServiceOp.Get, hg, ha, Run.singleRoundTrip, Run.trace]
  rcases hn : sa.Client.NewRequest st ctx "GET" ("groups/" ++ g ++ "/alerts/" ++ a) none with
    ⟨⟨req, e⟩, st1⟩
  have hn' := recorded_NewRequest sa.Client st st1 [] ctx _ _ _ req e hn
  rcases e with _ | e
  · rcases hd : sa.Client.Do st1 ctx req Alert.zero with ⟨⟨resp, e, root⟩, st2⟩
    have hd' := recorded_Do sa.Client st1 st2
      [Call.newRequest ctx "GET" ("groups/" ++ g ++ "/alerts/" ++ a) none]
      ctx req Alert.zero _ hd
    rcases e with _ | e <;>
      simp [AlertsServiceOp.Get, AlertsServiceOp.recorded, hg, ha, Sprintf_alert_item, hn',
        hd', Run.singleRoundTrip, Run.trace, Call.isNewRequest, Call.isDo, MethodGet] <;>
      exact ⟨_, _, _, ⟨_, hn⟩, rfl, rfl, rfl⟩
  · simp [AlertsServiceOp.Get, AlertsServiceOp.recorded, hg, ha, Sprintf_alert_item, hn',
      Run.singleRoundTrip, Run.trace, Call.isNewRequest, Call.isDo, MethodGet]

theorem alerts_acknowledge_roundTrip {σ Ctx Req : Type}
    (sa : AlertsServiceOp σ Ctx Req Alert) (st : σ) (ctx : Ctx) (g a : String)
    (params : Option AcknowledgeRequest) :
    (sa.recorded.Acknowledge (st, []) ctx g a params).singleRoundTrip
      sa.Client.NewRequest st := by
  by_cases hg : g = ""
  · simp [AlertsServiceOp.Acknowledge, hg, Run.singleRoundTrip, Run.trace]
  by_cases ha : a = ""
  · simp [AlertsServiceOp.Acknowledge, hg, ha, Run.singleRoundTrip, Run.trace]
  rcases params with _ | p
  · simp [AlertsServiceOp.Acknowledge, hg, ha, Run.singleRoundTrip, Run.trace]
  rcases hn : sa.Client.NewRequest st ctx "PATCH" ("groups/" ++ g ++ "/alerts/" ++ a)
      (some p) with ⟨⟨req, e⟩, st1⟩
  have hn' := recorded_NewRequest sa.Client st st1 [] ctx _ _ _ req e hn
  rcases e with _ | e
  · rcases hd : sa.Client.Do st1 ctx req Alert.zero with ⟨⟨resp, e, root⟩, st2⟩
    have hd' := recorded_Do sa.Client st1 st2
      [Call.newRequest ctx "PATCH" ("groups/" ++ g ++ "/alerts/" ++ a) (some p)]
      ctx req Alert.zero _ hd
    rcases e with _ | e <;>
      simp [AlertsServiceOp.Acknowledge, AlertsServiceOp.recorded, hg, ha,
        Sprintf_alert_item, hn', hd', Run.singleRoundTrip, Run.trace,
        Call.isNewRequest, Call.isDo, MethodPatch] <;>
      exact ⟨_, _, _, ⟨_, hn⟩, rfl, rfl, rfl⟩
  · simp [AlertsServiceOp.Acknowledge, AlertsServiceOp.recorded, hg, ha,
      Sprintf_alert_item, hn', Run.singleRoundTrip, Run.trace,
      Call.isNewRequest, Call.isDo, MethodPatch]

theorem alerts_list_roundTrip {σ Ctx Req Opts : Type}
    (enc : String → Opts → String × Option GoError)
    (sl : AlertsServiceOp σ Ctx Req AlertsResponse) (st : σ) (ctx : Ctx)
    (g : String) (o : Option Opts) :
    (sl.recorded.List enc (st, []) ctx g o).singleRoundTrip
      sl.Client.NewRequest st := by
  by_cases hg : g = ""
  · simp [AlertsServiceOp.List, hg, Run.singleRoundTrip, Run.trace]
  rcases hq : setListOptions enc (Sprintf alertPath [FmtArg.str g]) o with ⟨q, _ | eq⟩
  · rcases hn : sl.Client.NewRequest st ctx "GET" q none with ⟨⟨req, e⟩, st1⟩
    have hn' := recorded_NewRequest sl.Client st st1 [] ctx _ _ _ req e hn
    rcases e with _ | e
    · rcases hd : sl.Client.Do st1 ctx req AlertsResponse.zero with ⟨⟨resp, e, root⟩, st2⟩
      have hd' := recorded_Do sl.Client st1 st2 [Call.newRequest ctx "GET" q none]
        ctx req AlertsResponse.zero _ hd
      rcases e with _ | e
      · rcases hl : root.Links with _ | l
        · simp [AlertsServiceOp.List, AlertsServiceOp.recorded, hg, hq, hn', hd', hl,
            Run.singleRoundTrip, Run.trace, Call.isNewRequest, Call.isDo, MethodGet]
          exact ⟨_, _, _, ⟨_, hn⟩, rfl, rfl, rfl⟩
        · rcases resp with _ | r <;>
            simp [AlertsServiceOp.List, AlertsServiceOp.recorded, hg, hq, hn', hd', hl,
              Run.singleRoundTrip, Run.trace, Call.isNewRequest, Call.isDo, MethodGet] <;>
            exact ⟨_, _, _, ⟨_, hn⟩, rfl, rfl, rfl⟩
      · simp [AlertsServiceOp.List, AlertsServiceOp.recorded, hg, hq, hn', hd',
          Run.singleRoundTrip, Run.trace, Call.isNewRequest, Call.isDo, MethodGet]
        exact ⟨_, _, _, ⟨_, hn⟩, rfl, rfl, rfl⟩
    · simp [AlertsServiceOp.List, AlertsServiceOp.recorded, hg, hq, hn',
        Run.singleRoundTrip, Run.trace, Call.isNewRequest, Call.isDo, MethodGet]
  · simp [AlertsServiceOp.List, AlertsServiceOp.recorded, hg, hq, Run.singleRoundTrip, Run.trace]

theorem processes_list_roundTrip {σ Ctx Req Opts : Type}
    (enc : String → Opts → String × Option GoError)
    (sp : ProcessesServiceOp σ Ctx Req processesResponse) (st : σ) (ctx : Ctx)
    (g : String) (o : Option Opts) :
    (sp.recorded.List enc (st, []) ctx g o).singleRoundTrip
      sp.Client.NewRequest st := by
  rcases hq : setListOptions enc (Sprintf processesPath [FmtArg.str g]) o with ⟨q, _ | eq⟩
  · rcases hn : sp.Client.NewRequest st ctx "GET" q none with ⟨⟨req, e⟩, st1⟩
    have hn' := recorded_NewRequest sp.Client st st1 [] ctx _ _ _ req e hn
    rcases e with _ | e
    · rcases hd : sp.Client.Do st1 ctx req processesResponse.zero with
        ⟨⟨resp, e, root⟩, st2⟩
      have hd' := recorded_Do sp.Client st1 st2 [Call.newRequest ctx "GET" q none]
        ctx req processesResponse.zero _ hd
      rcases e with _ | e
      · rcases hl : root.Links with _ | l
        · simp [ProcessesServiceOp.List, ProcessesServiceOp.recorded, hq, hn', hd', hl,
            Run.singleRoundTrip, Run.trace, Call.isNewRequest, Call.isDo, MethodGet]
          exact ⟨_, _, _, ⟨_, hn⟩, rfl, rfl, rfl⟩
        · rcases resp with _ | r <;>
            simp [ProcessesServiceOp.List, ProcessesServiceOp.recorded, hq, hn', hd', hl,
              Run.singleRoundTrip, Run.trace, Call.isNewRequest, Call.isDo, MethodGet] <;>
            exact ⟨_, _, _, ⟨_, hn⟩, rfl, rfl, rfl⟩
      · simp [ProcessesServiceOp.List, ProcessesServiceOp.recorded, hq, hn', hd',
          Run.singleRoundTrip, Run.trace, Call.isNewRequest, Call.isDo, MethodGet]
        exact ⟨_, _, _, ⟨_, hn⟩, rfl, rfl, rfl⟩
    · simp [ProcessesServiceOp.List, ProcessesServiceOp.recorded, hq, hn',
        Run.singleRoundTrip, Run.trace, Call.isNewRequest, Call.isDo, MethodGet]
  · simp [ProcessesServiceOp.List, ProcessesServiceOp.recorded, hq, Run.singleRoundTrip, Run.trace]

theorem measurements_list_roundTrip {σ Ctx Req Opts : Type}
    (enc : String → Opts → String × Option GoError)
    (sm : MeasurementsServiceOp σ Ctx Req measurementsResponse) (st : σ) (ctx : Ctx)
    (g : String) (h : String) (p : Int) (o : Option Opts) :
    (sm.recorded.List enc (st, []) ctx g h p o).singleRoundTrip
      sm.Client.NewRequest st := by
  rcases hq : setListOptions enc
      (Sprintf measurementsPath [FmtArg.str g, FmtArg.str h, FmtArg.int p]) o with
    ⟨q, _ | eq⟩
  · rcases hn : sm.Client.NewRequest st ctx "GET" q none with ⟨⟨req, e⟩, st1⟩
    have hn' := recorded_NewRequest sm.Client st st1 [] ctx _ _ _ req e hn
    rcases e with _ | e
    · rcases hd : sm.Client.Do st1 ctx req measurementsResponse.zero with
        ⟨⟨resp, e, root⟩, st2⟩
      have hd' := recorded_Do sm.Client st1 st2 [Call.newRequest ctx "GET" q none]
        ctx req measurementsResponse.zero _ hd
      rcases e with _ | e
      · rcases hl : root.Links with _ | l
        · simp [MeasurementsServiceOp.List, MeasurementsServiceOp.recorded, hq, hn', hd', hl,
            Run.singleRoundTrip, Run.trace, Call.isNewRequest, Call.isDo, MethodGet]
          exact ⟨_, _, _, ⟨_, hn⟩, rfl, rfl, rfl⟩
        · rcases resp with _ | r <;>
            simp [MeasurementsServiceOp.List, MeasurementsServiceOp.recorded, hq, hn', hd', hl,
              Run.singleRoundTrip, Run.trace, Call.isNewRequest, Call.isDo, MethodGet] <;>
            exact ⟨_, _, _, ⟨_, hn⟩, rfl, rfl, rfl⟩
      · simp [MeasurementsServiceOp.List, MeasurementsServiceOp.recorded, hq, hn', hd',
          Run.singleRoundTrip, Run.trace, Call.isNewRequest, Call.isDo, MethodGet]
        exact ⟨_, _, _, ⟨_, hn⟩, rfl, rfl, rfl⟩
    · simp [MeasurementsServiceOp.List, MeasurementsServiceOp.recorded, hq, hn',
        Run.singleRoundTrip, Run.trace, Call.isNewRequest, Call.isDo, MethodGet]
  · simp [MeasurementsServiceOp.List, MeasurementsServiceOp.recorded, hq,
      Run.singleRoundTrip, Run.trace]

/-- C9: each of Alerts.List, Alerts.Get, Alerts.Acknowledge, Processes.List and
Measurements.List, for every input and every behaviour of the collaborators, run on an
observed client, applies NewRequest at most once and Do at most once, applies Do only
as the second call, after NewRequest gave a nil error, and only to the request
NewRequest gave, and has made exactly one NewRequest and one Do whenever it returns a
nil error. -/
theorem service_methods_single_round_trip {σ Ctx Req Opts : Type}
    (enc : String → Opts → String × Option GoError)
    (sl : AlertsServiceOp σ Ctx Req AlertsResponse) (sa : AlertsServiceOp σ Ctx Req Alert)
    (sp : ProcessesServiceOp σ Ctx Req processesResponse)
    (sm : MeasurementsServiceOp σ Ctx Req measurementsResponse)
    (st : σ) (ctx : Ctx) (groupID alertID host : String) (port : Int)
    (listOptions : Option Opts) (params : Option AcknowledgeRequest) :
    (sl.recorded.List enc (st, []) ctx groupID listOptions).singleRoundTrip
      sl.Client.NewRequest st ∧
    (sa.recorded.Get (st, []) ctx groupID alertID).singleRoundTrip
      sa.Client.NewRequest st ∧
    (sa.recorded.Acknowledge (st, []) ctx groupID alertID params).singleRoundTrip
      sa.Client.NewRequest st ∧
    (sp.recorded.List enc (st, []) ctx groupID listOptions).singleRoundTrip
      sp.Client.NewRequest st ∧
    (sm.recorded.List enc (st, []) ctx groupID host port listOptions).singleRoundTrip
      sm.Client.NewRequest st :=
  ⟨alerts_list_roundTrip enc sl st ctx groupID listOptions,
   alerts_get_roundTrip sa st ctx groupID alertID,
   alerts_acknowledge_roundTrip sa st ctx groupID alertID params,
   processes_list_roundTrip enc sp st ctx groupID listOptions,
   measurements_list_roundTrip enc sm st ctx groupID host port listOptions⟩

/-! ## Alert and error of Get and Acknowledge -/

theorem alerts_get_alertIffNoError {σ Ctx Req : Type} (sa : AlertsServiceOp σ Ctx Req Alert)
    (st : σ) (ctx : Ctx) (g a : String) : (sa.Get st ctx g a).alertIffNoError := by
  generalize hr : sa.Get st ctx g a = r
  unfold AlertsServiceOp.Get at hr
  repeat' (first | split at hr | dsimp only at hr)
  all_goals subst hr
  all_goals unfold Run.alertIffNoError
  all_goals refine ⟨_, _, _, rfl, ?_⟩
  all_goals simp

theorem alerts_acknowledge_alertIffNoError {σ Ctx Req : Type}
    (sa : AlertsServiceOp σ Ctx Req Alert) (st : σ) (ctx : Ctx) (g a : String)
    (params : Option AcknowledgeRequest) :
    (sa.Acknowledge st ctx g a params).alertIffNoError := by
  generalize hr : sa.Acknowledge st ctx g a params = r
  unfold AlertsServiceOp.Acknowledge at hr
  repeat' (first | split at hr | dsimp only at hr)
  all_goals subst hr
  all_goals unfold Run.alertIffNoError
  all_goals refine ⟨_, _, _, rfl, ?_⟩
  all_goals simp

theorem alerts_get_alertOrError {σ Ctx Req : Type} (sa : AlertsServiceOp σ Ctx Req Alert)
    (st : σ) (ctx : Ctx) (g a : String) :
    (sa.recorded.Get (st, []) ctx g a).alertOrError := by
  unfold Run.alertOrError
  by_cases hg : g = ""
  · simp only [AlertsServiceOp.Get, hg, if_true]
    exact ⟨_, _, _, rfl, by simp⟩
  by_cases ha : a = ""
  · simp only [AlertsServiceOp.Get, hg, ha, if_true, if_false]
    exact ⟨_, _, _, rfl, by simp⟩
  rcases hn : sa.Client.NewRequest st ctx MethodGet ("groups/" ++ g ++ "/alerts/" ++ a)
      none with ⟨⟨req, e⟩, st1⟩
  have hn' := recorded_NewRequest sa.Client st st1 [] ctx _ _ _ req e hn
  rcases e with _ | e
  · rcases hd : sa.Client.Do st1 ctx req Alert.zero with ⟨⟨resp, e, root⟩, st2⟩
    have hd' := recorded_Do sa.Client st1 st2
      ([] ++ [Call.newRequest ctx MethodGet ("groups/" ++ g ++ "/alerts/" ++ a) none])
      ctx req Alert.zero _ hd
    rcases e with _ | e
    · simp only [AlertsServiceOp.Get, AlertsServiceOp.recorded, hg, ha, if_false,
        Sprintf_alert_item, hn', hd']
      exact ⟨_, _, _, rfl, by simp [Run.trace, Call.isNewRequest, Call.isDo]⟩
    · simp only [AlertsServiceOp.Get, AlertsServiceOp.recorded, hg, ha, if_false,
        Sprintf_alert_item, hn', hd']
      exact ⟨_, _, _, rfl, by simp [Run.trace, Call.isNewRequest, Call.isDo]⟩
  · simp only [AlertsServiceOp.Get, AlertsServiceOp.recorded, hg, ha, if_false,
      Sprintf_alert_item, hn']
    exact ⟨_, _, _, rfl, by simp [Run.trace, Call.isNewRequest, Call.isDo]⟩

theorem alerts_acknowledge_alertOrError {σ Ctx Req : Type}
    (sa : AlertsServiceOp σ Ctx Req Alert) (st : σ) (ctx : Ctx) (g a : String)
    (params : Option AcknowledgeRequest) :
    (sa.recorded.Acknowledge (st, []) ctx g a params).alertOrError := by
  unfold Run.alertOrError
  by_cases hg : g = ""
  · simp only [AlertsServiceOp.Acknowledge, hg, if_true]
    exact ⟨_, _, _, rfl, by simp⟩
  by_cases ha : a = ""
  · simp only [AlertsServiceOp.Acknowledge, hg, ha, if_true, if_false]
    exact ⟨_, _, _, rfl, by simp⟩
  rcases params with _ | p
  · simp only [AlertsServiceOp.Acknowledge, hg, ha, if_false]
    exact ⟨_, _, _, rfl, by simp⟩
  rcases hn : sa.Client.NewRequest st ctx MethodPatch ("groups/" ++ g ++ "/alerts/" ++ a)
      (some p) with ⟨⟨req, e⟩, st1⟩
  have hn' := recorded_NewRequest sa.Client st st1 [] ctx _ _ _ req e hn
  rcases e with _ | e
  · rcases hd : sa.Client.Do st1 ctx req Alert.zero with ⟨⟨resp, e, root⟩, st2⟩
    have hd' := recorded_Do sa.Client st1 st2
      ([] ++ [Call.newRequest ctx MethodPatch ("groups/" ++ g ++ "/alerts/" ++ a) (some p)])
      ctx req Alert.zero _ hd
    rcases e with _ | e
    · simp only [AlertsServiceOp.Acknowledge, AlertsServiceOp.recorded, hg, ha, if_false,
        Sprintf_alert_item, hn', hd']
      exact ⟨_, _, _, rfl, by simp [Run.trace, Call.isNewRequest, Call.isDo]⟩
    · simp only [AlertsServiceOp.Acknowledge, AlertsServiceOp.recorded, hg, ha, if_false,
        Sprintf_alert_item, hn', hd']
      exact ⟨_, _, _, rfl, by simp [Run.trace, Call.isNewRequest, Call.isDo]⟩
  · simp only [AlertsServiceOp.Acknowledge, AlertsServiceOp.recorded, hg, ha, if_false,
      Sprintf_alert_item, hn']
    exact ⟨_, _, _, rfl, by simp [Run.trace, Call.isNewRequest, Call.isDo]⟩

/-- C10: Alerts.Get and Alerts.Acknowledge, for every input and every behaviour of the
collaborator, return, and return a nil Alert exactly when they return a non-nil error;
on an observed client, whenever they made no Do (the failure came before Do was
called) the response metadata they return is nil and the error non-nil. -/
theorem alerts_item_alert_nil_iff_error {σ Ctx Req : Type}
    (sa : AlertsServiceOp σ Ctx Req Alert) (st : σ) (ctx : Ctx)
    (groupID alertID : String) (params : Option AcknowledgeRequest) :
    (sa.Get st ctx groupID alertID).alertIffNoError ∧
    (sa.recorded.Get (st, []) ctx groupID alertID).alertOrError ∧
    (sa.Acknowledge st ctx groupID alertID params).alertIffNoError ∧
    (sa.recorded.Acknowledge (st, []) ctx groupID alertID params).alertOrError :=
  ⟨alerts_get_alertIffNoError sa st ctx groupID alertID,
   alerts_get_alertOrError sa st ctx groupID alertID,
   alerts_acknowledge_alertIffNoError sa st ctx groupID alertID params,
   alerts_acknowledge_alertOrError sa st ctx groupID alertID params⟩

end mongodbatlas
